import Mathlib

/-!
# fddEMU: the drive emulation engine of `FloppyDrive.cpp`

A shallow embedding of `src/FloppyDisk.h` and `src/FloppyDrive.cpp`.

Conventions of the embedding.

* The target is an 8-bit AVR: `int` is 16 bits wide, `long` is 32 bits wide.
  Machine integers are `Int`/`Nat` with explicit wrap-around where the code
  can overflow (`int8_t iTrack`, `int16_t lba`, `int16_t crc`, byte stores).
* An arithmetic right shift `x >> k` of a two's complement value is the floor
  division `x / 2 ^ k`; the mask `x & 0xFF` is `x % 256`.
* `sectorData` is the packed `struct floppySector`, held as a byte memory
  indexed by the offset inside the struct.  The offsets are the ones the
  pointer arithmetic of `FloppyDrive::run` relies on.
* Collaborators that are not part of the two source files (the block store,
  the virtual store, the flux transceiver, `calc_crc`, the pin macros) are
  inputs of the model.
-/

namespace FddEMU

/-! ## Machine integers -/

/-- Wrap-around conversion to `int8_t`. -/
def toInt8 (x : Int) : Int := (x + 128) % 256 - 128

/-- Wrap-around conversion to `int16_t` (also the width of `int`). -/
def toInt16 (x : Int) : Int := (x + 32768) % 65536 - 32768

/-- Conversion of an integer to `uint8_t`: the low eight bits. -/
def toUInt8 (x : Int) : Nat := (x % 256).toNat

/-! ## `FloppyDisk.h` -/

/-- Flag bit `FD_CHANGED`, `(1 << 0)`. -/
def FD_CHANGED : Nat := 1 <<< 0

/-- Flag bit `FD_READY`, `(1 << 1)`. -/
def FD_READY : Nat := 1 <<< 1

/-- Flag bit `FD_READONLY`, `(1 << 2)`. -/
def FD_READONLY : Nat := 1 <<< 2

/-- The data members of `class FloppyDisk` that the engine reads. -/
structure FloppyDisk where
  /-- Field `uint8_t flags`. -/
  flags : Nat
  /-- Field `uint8_t numTrack`. -/
  numTrack : Nat
  /-- Field `uint8_t numSec`. -/
  numSec : Nat
  /-- Field `long startSector`. -/
  startSector : Int

/-- Method `isReady`: `flags & FD_READY` converted to `bool`. -/
def FloppyDisk.isReady (d : FloppyDisk) : Bool := d.flags &&& FD_READY != 0

/-- Method `isReadonly`: `flags & FD_READONLY` converted to `bool`. -/
def FloppyDisk.isReadonly (d : FloppyDisk) : Bool := d.flags &&& FD_READONLY != 0

/-- Method `isChanged`: `flags & FD_CHANGED` converted to `bool`. -/
def FloppyDisk.isChanged (d : FloppyDisk) : Bool := d.flags &&& FD_CHANGED != 0

/-- Method `clrChanged`: `flags &= ~FD_CHANGED` on the 8-bit field. -/
def FloppyDisk.clrChanged (d : FloppyDisk) : FloppyDisk :=
  { d with flags := d.flags &&& (255 - FD_CHANGED) }

/-! ## Build parameters and collaborators -/

/-- What the headers outside the two source files fix for one build:
`calc_crc` (avrFlux), the macro `IS_HALFSECTOR()` and the switch
`ENABLE_VFFS` (fddEMU.h). -/
structure Platform where
  /-- Function `calc_crc(buf, count)` applied to the `count` bytes at `buf`;
  its `uint16_t` result is taken modulo `2 ^ 16` at every call. -/
  calc_crc : List Nat → Nat
  /-- Value of the macro `IS_HALFSECTOR()`. -/
  IS_HALFSECTOR : Bool
  /-- Build switch `ENABLE_VFFS`. -/
  ENABLE_VFFS : Bool

/-- Modelled from the spec: the constant `FR_DISK_ERR` comes from `pff.h`,
which is not among the source files; the store contract of the spec says that
status 0 is success and a non-zero status is a device error, and `FR_DISK_ERR`
is the first error code after `FR_OK = 0`. -/
def FR_DISK_ERR : Int := 1

/-- The two backing stores. -/
inductive Backing where
  | physical
  | virtual
  deriving DecidableEq, Repr

/-- The sector buffer `sectorData` as a byte memory: offset inside the packed
struct to byte value. -/
abbrev Buf := Nat → Nat

/-- Offset of `sectorData.header` (eight bytes: id, track, side, sector,
length, crcHI, crcLO, gap). -/
def OFF_HEADER : Nat := 0

/-- Offset of `sectorData.id`, the byte right before the payload
(`firstHalf[-1]`). -/
def OFF_ID : Nat := 8

/-- Offset of `sectorData.data`, the 512 payload bytes (`firstHalf`). -/
def OFF_DATA : Nat := 9

/-- Offset of `sectorData.crcHI` (`secondHalf[256]`). -/
def OFF_CRCHI : Nat := 521

/-- Offset of `sectorData.crcLO` (`secondHalf[257]`). -/
def OFF_CRCLO : Nat := 522

/-- Offset of `sectorData.gap` (`secondHalf[258]`). -/
def OFF_GAP : Nat := 523

/-- Offset of `sectorData.extra`, the scratch area (`savedBytes`). -/
def OFF_EXTRA : Nat := 524

/-- Store of one byte: `buf[p] = v` with `v` converted to `uint8_t`. -/
def poke (buf : Buf) (p : Nat) (v : Nat) : Buf :=
  fun a => if a = p then v % 256 else buf a

/-- The `n` bytes at offset `p`. -/
def peekN (buf : Buf) (p n : Nat) : List Nat :=
  (List.range n).map (fun i => buf (p + i))

/-- Call `memcpy(dst, src, n)` inside the buffer (the ranges used do not
overlap). -/
def memcpy (buf : Buf) (dst src n : Nat) : Buf :=
  fun a => if dst ≤ a ∧ a < dst + n then buf (src + (a - dst)) else buf a

/-- The store delivers 512 bytes into `sectorData.data`. -/
def loadData (buf : Buf) (bytes : Nat → Nat) : Buf :=
  fun a => if OFF_DATA ≤ a ∧ a < OFF_DATA + 512 then bytes (a - OFF_DATA) % 256 else buf a

/-- The `uint16_t` result of `calc_crc` over the `n` bytes at offset `p`. -/
def crcAt (P : Platform) (buf : Buf) (p n : Nat) : Nat :=
  P.calc_crc (peekN buf p n) % 65536

/-- The block store and the virtual store as seen during one sector slot. -/
structure StoreIO where
  /-- Call `disk_read_sector` / `vffs.readSector` at an address: the status
  and the bytes left in the buffer. -/
  read : Backing → Int → Int × (Nat → Nat)
  /-- Call `disk_write_sector` / `vffs.writeSector` at an address with the
  512 bytes handed over: the status. -/
  write : Backing → Int → (Nat → Nat) → Int

/-- What the engine does to the outside, in program order. -/
inductive Event where
  /-- A sector read issued to a store at an address. -/
  | storeRead (b : Backing) (addr : Int)
  /-- A sector write issued to a store at an address, with the 512 bytes at
  `sectorData.data` at that moment. -/
  | storeWrite (b : Backing) (addr : Int) (data : Nat → Nat)
  /-- Call `msg.error(code)`. -/
  | msgError (code : String)
  /-- Call `debugPrintSector(charRW)`. -/
  | debugSector (charRW : Char)
  /-- Call `debugPrint_P(text)`. -/
  | debugPrint (text : String)
  /-- Call `write_sector(ptr, bitLength)`: the frame at offset `ptr` of the
  buffer is handed to the transceiver; `snapshot` is the buffer then. -/
  | transmit (ptr : Nat) (snapshot : Buf)
  /-- Call `read_sector(ptr, bitLength)`, the read-back. -/
  | readback (ptr : Nat)
  /-- Output TRACK0 driven low (`true`, asserted) or high. -/
  | track0 (low : Bool)
  /-- Output DISK-CHANGE driven low (`true`) or high. -/
  | dskChange (low : Bool)
  /-- Output WRITE-PROTECT driven low (`true`) or high. -/
  | writeProt (low : Bool)

/-- A store write event. -/
def Event.isStoreWrite : Event → Bool
  | .storeWrite _ _ _ => true
  | _ => false

/-- A store read or write event. -/
def Event.isStoreAccess : Event → Bool
  | .storeWrite _ _ _ => true
  | .storeRead _ _ => true
  | _ => false

/-- The store and address of a store access. -/
def Event.location : Event → Option (Backing × Int)
  | .storeWrite b a _ => some (b, a)
  | .storeRead b a => some (b, a)
  | _ => none

/-! ## `class FloppyDrive` -/

/-- The state of `class FloppyDrive : public FloppyDisk`. -/
structure FloppyDrive extends FloppyDisk where
  /-- Field `track`, a signed integer (its declaration is in `FloppyDrive.h`);
  sums with the 8-bit `iTrack` are taken exactly. -/
  track : Int
  /-- Field `uint8_t side`. -/
  side : Nat
  /-- Field `uint8_t sector`. -/
  sector : Nat
  /-- Result of the predicate `isVirtual()` (declared in `FloppyDrive.h`): a
  virtual image is mounted. -/
  isVirtual : Bool

/-- The physical sector `getSectorData` and `setSectorData` address when the
drive is READY: `startSector+(lba >> 1)` in half-sector mode, `startSector+lba`
otherwise (`long` arithmetic, taken exactly). -/
def physAddr (P : Platform) (d : FloppyDrive) (lba : Int) : Int :=
  if P.IS_HALFSECTOR then d.startSector + lba / 2 else d.startSector + lba

/-- Method `FloppyDrive::getSectorData(int lba)`: status, buffer afterwards,
events. -/
def getSectorData (P : Platform) (io : StoreIO) (d : FloppyDrive) (buf : Buf) (lba : Int) :
    Int × Buf × List Event :=
  if d.isReady then
    let r := io.read .physical (physAddr P d lba)
    (r.1, loadData buf r.2,
      [Event.storeRead .physical (physAddr P d lba)]
        ++ (if r.1 ≠ 0 then [Event.msgError "err_diskread"] else [])
        ++ [Event.debugSector 'R'])
  else if P.ENABLE_VFFS && d.isVirtual then
    let r := io.read .virtual lba
    (r.1, loadData buf r.2, [Event.storeRead .virtual lba, Event.debugSector 'R'])
  else
    (FR_DISK_ERR, buf, [Event.debugSector 'R'])

/-- The test `(sectorData.crcHI == (crc >> 8)) || (sectorData.crcLO == (crc & 0xFF))`
of `setSectorData`, with `crc = calc_crc(&sectorData.id, 513)`. -/
def crcAccepted (P : Platform) (buf : Buf) : Bool :=
  let crc := crcAt P buf OFF_ID 513
  (buf OFF_CRCHI == crc / 256) || (buf OFF_CRCLO == crc % 256)

/-- Method `FloppyDrive::setSectorData(int lba)`: status and events (the buffer
is not modified). -/
def setSectorData (P : Platform) (io : StoreIO) (d : FloppyDrive) (buf : Buf) (lba : Int) :
    Int × List Event :=
  let data : Nat → Nat := fun i => buf (OFF_DATA + i)
  if crcAccepted P buf then
    if d.isReady then
      let n := io.write .physical (physAddr P d lba) data
      (n, [Event.debugSector 'W', Event.storeWrite .physical (physAddr P d lba) data]
            ++ (if n ≠ 0 then [Event.msgError "err_diskwrite"] else []))
    else if P.ENABLE_VFFS && d.isVirtual then
      (io.write .virtual lba data,
        [Event.debugSector 'W', Event.storeWrite .virtual lba data])
    else
      (FR_DISK_ERR, [Event.debugSector 'W'])
  else
    (FR_DISK_ERR, [Event.debugSector 'W', Event.debugPrint "CRC error!\n"])

/-! ## Interrupt-shared state and the step handler -/

/-- The engine state the run loop works on: the drive object, the variables
shared with the interrupt handlers (`iTrack` and the TRACKCHANGED bit of
`iFlags`), the static buffer `sectorData`, and the events so far. -/
structure Machine where
  /-- The drive object `*this`. -/
  d : FloppyDrive
  /-- Global `volatile int8_t iTrack`, the pending track delta. -/
  iTrack : Int
  /-- Bit read by `IS_TRACKCHANGED()`. -/
  trackChanged : Bool
  /-- Global `sectorData`. -/
  buf : Buf
  /-- Events issued so far, oldest first. -/
  trace : List Event

/-- The step interrupt routine `ISR(INT0_vect)`, given what `IS_STEP()` and
`STEPDIR()` read inside the handler:
`if (IS_STEP()) (STEPDIR()) ? --iTrack : ++iTrack; SET_TRACKCHANGED();`. -/
def stepISR (isStep stepDir : Bool) (m : Machine) : Machine :=
  { m with
    iTrack := if isStep then (if stepDir then toInt8 (m.iTrack - 1) else toInt8 (m.iTrack + 1))
              else m.iTrack
    trackChanged := true }

/-- A run of step interrupts, each with its `(IS_STEP(), STEPDIR())` reading. -/
def stepEdges (edges : List (Bool × Bool)) (m : Machine) : Machine :=
  edges.foldl (fun acc e => stepISR e.1 e.2 acc) m

/-- The validity check of `run`:
`if (track < 0) track=0; else if (track >= numTrack) track = numTrack-1;`. -/
def clampTrack (numTrack : Nat) (t : Int) : Int :=
  if t < 0 then 0 else if t ≥ (numTrack : Int) then (numTrack : Int) - 1 else t

/-- The track-change step of `run` (the `if (IS_TRACKCHANGED())` block). -/
def trackChangeStep (m : Machine) : Machine :=
  if m.trackChanged then
    let t := clampTrack m.d.numTrack (m.d.track + m.iTrack)
    { m with
      trackChanged := false
      iTrack := 0
      d := { m.d with track := t }
      trace := m.trace ++
        [Event.track0 (t == 0), Event.dskChange (!(m.d.isReady || m.d.isVirtual))] }
  else m

/-! ## Sector framing -/

/-- The `int16_t lba` of `run`: `(track*2+side)*numSec+sector` evaluated in
16-bit `int` arithmetic and stored in an `int16_t`; a value outside the range
wraps around modulo `2 ^ 16` (two's complement, as avr-gcc compiles it). -/
def lbaOf (d : FloppyDrive) : Int :=
  toInt16 ((d.track * 2 + (d.side : Int)) * (d.numSec : Int) + (d.sector : Int))

/-- The header preparation of `run` (`sectorData.header.id = 0xFE` up to
`sectorData.header.gap = 0x4E`); `crc` is the `int16_t` local. -/
def prepareHeader (P : Platform) (d : FloppyDrive) (buf : Buf) : Buf :=
  let b1 := poke buf (OFF_HEADER + 0) 0xFE
  let b2 := poke b1 (OFF_HEADER + 1) (toUInt8 d.track)
  let b3 := poke b2 (OFF_HEADER + 2) d.side
  let b4 := poke b3 (OFF_HEADER + 3) (d.sector + 1)
  let b5 := poke b4 (OFF_HEADER + 4) (if P.IS_HALFSECTOR then 1 else 2)
  let crc : Int := toInt16 (crcAt P b5 OFF_HEADER 5)
  let b6 := poke b5 (OFF_HEADER + 5) (toUInt8 (crc / 256))
  let b7 := poke b6 (OFF_HEADER + 6) (toUInt8 (crc % 256))
  poke b7 (OFF_HEADER + 7) 0x4E

/-- What the outside feeds into one sector slot. -/
structure SlotIn where
  /-- Value of the macro `SIDE()`. -/
  SIDE : Bool
  /-- Step interrupts taken since the previous slot's track check. -/
  edges : List (Bool × Bool)
  /-- The stores during this slot. -/
  io : StoreIO
  /-- Result of the first `write_sector` call of the slot. -/
  write1 : Int
  /-- The first `read_sector` call: result and buffer afterwards. -/
  read1 : Buf → Int × Buf
  /-- Result of the second `write_sector` call (second half). -/
  write2 : Int
  /-- The second `read_sector` call (second half). -/
  read2 : Buf → Int × Buf

/-- The block `res = read_sector(ptr, bitLength); if (res) debugPrint_P(...);
else setSectorData(lba); while (IS_WRITE());` that follows a host write.
The busy wait on WRITE-GATE is taken to end. -/
def readBackAndSave (P : Platform) (io : StoreIO) (d : FloppyDrive) (rd : Buf → Int × Buf)
    (ptr : Nat) (lba : Int) (buf : Buf) : Buf × List Event :=
  let r := rd buf
  if r.1 ≠ 0 then (r.2, [Event.readback ptr, Event.debugPrint "Read error!\n"])
  else (r.2, [Event.readback ptr] ++ (setSectorData P io d r.2 lba).2)

/-- Offset of `firstHalf`. -/
def firstHalf : Nat := OFF_DATA

/-- Offset of `secondHalf = firstHalf + 256`. -/
def secondHalf : Nat := OFF_DATA + 256

/-- Offset of `savedBytes = sectorData.extra`. -/
def savedBytes : Nat := OFF_EXTRA

/-- Framing of the first half up to its `write_sector` call. -/
def frameFirstHalf (P : Platform) (buf : Buf) : Buf :=
  let b1 := poke buf (firstHalf - 1) 0xFB
  let crc : Int := toInt16 (crcAt P b1 (firstHalf - 1) 257)
  let b2 := memcpy b1 savedBytes secondHalf 3
  let b3 := poke b2 (firstHalf + 256) (toUInt8 (crc / 256))
  let b4 := poke b3 (firstHalf + 257) (toUInt8 (crc % 256))
  poke b4 (firstHalf + 258) 0x4E

/-- Framing of the second half, from `memcpy(secondHalf, savedBytes, 3)` up to
its `write_sector` call. -/
def frameSecondHalf (P : Platform) (buf : Buf) : Buf :=
  let b1 := memcpy buf secondHalf savedBytes 3
  let crc : Int := toInt16 (crcAt P b1 (secondHalf - 1) 257)
  let b2 := poke b1 (secondHalf + 256) (toUInt8 (crc / 256))
  let b3 := poke b2 (secondHalf + 257) (toUInt8 (crc % 256))
  poke b3 (secondHalf + 258) 0x4E

/-- The half-sector branch of `run` (`if (IS_HALFSECTOR())` block). -/
def halfSectorBranch (P : Platform) (inp : SlotIn) (d : FloppyDrive) (lba : Int) (buf : Buf) :
    Buf × List Event :=
  if d.sector % 2 = 0 then
    let f1 := frameFirstHalf P buf
    let e1 := [Event.transmit (firstHalf - 9) f1]
    let r1 := if inp.write1 > 0 then readBackAndSave P inp.io d inp.read1 (firstHalf - 9) lba f1
              else (f1, [])
    let f2 := frameSecondHalf P r1.1
    let e2 := [Event.transmit (secondHalf - 9) f2]
    let r2 := if inp.write2 > 0 then readBackAndSave P inp.io d inp.read2 (secondHalf - 9) lba f2
              else (f2, [])
    (memcpy r2.1 (secondHalf - 9) savedBytes 9, e1 ++ r1.2 ++ e2 ++ r2.2)
  else (buf, [])

/-- Framing of a full sector up to its `write_sector` call. -/
def frameFullSector (P : Platform) (buf : Buf) : Buf :=
  let b1 := poke buf OFF_ID 0xFB
  let crc : Int := toInt16 (crcAt P b1 OFF_ID 513)
  let b2 := poke b1 OFF_CRCHI (toUInt8 (crc / 256))
  let b3 := poke b2 OFF_CRCLO (toUInt8 (crc % 256))
  poke b3 OFF_GAP 0x4E

/-- The 512-byte branch of `run` (`else //512b sector`). -/
def fullSectorBranch (P : Platform) (inp : SlotIn) (d : FloppyDrive) (lba : Int) (buf : Buf) :
    Buf × List Event :=
  let f := frameFullSector P buf
  let e := [Event.transmit OFF_HEADER f]
  if inp.write1 > 0 then
    let r := readBackAndSave P inp.io d inp.read1 OFF_HEADER lba f
    (r.1, e ++ r.2)
  else if inp.write1 < 0 then (f, e ++ [Event.debugPrint "Unsupported sector size!\n"])
  else (f, e)

/-- One pass through the body of the sector loop after the selection checks:
from `side = (SIDE()) ? 0:1` to the end of the framing branch.  The step
interrupts of the slot are taken before the track check. -/
def sectorSlot (P : Platform) (inp : SlotIn) (m : Machine) : Machine :=
  let m1 := { m with d := { m.d with side := if inp.SIDE then 0 else 1 } }
  let m2 := trackChangeStep (stepEdges inp.edges m1)
  let lba := lbaOf m2.d
  let g := getSectorData P inp.io m2.d m2.buf lba
  let h := prepareHeader P m2.d g.2.1
  let r := if P.IS_HALFSECTOR then halfSectorBranch P inp m2.d lba h
           else fullSectorBranch P inp m2.d lba h
  { m2 with buf := r.1, trace := m2.trace ++ g.2.2 ++ r.2 }

/-! ## The run loop -/

/-- The outside during a call of `run`. -/
structure Env where
  /-- What the `n`-th evaluation of `GET_DRVSEL()` reads (selected or not). -/
  drvsel : Nat → Bool
  /-- The inputs of the `n`-th sector slot. -/
  slot : Nat → SlotIn

/-- The state of a call of `run`. -/
structure RunState where
  /-- The engine state. -/
  m : Machine
  /-- Number of `GET_DRVSEL()` evaluations so far. -/
  polls : Nat
  /-- Number of sector slots processed so far. -/
  slots : Nat

/-- The loop `for (...; (sector < numSec) && GET_DRVSEL(); sector++)`, entered
at its condition.  `none` when the fuel runs out. -/
def forLoop (P : Platform) (env : Env) : Nat → RunState → Option RunState
  | 0, _ => none
  | fuel + 1, s =>
    if s.m.d.sector < s.m.d.numSec then
      if env.drvsel s.polls then
        if env.drvsel (s.polls + 1) then
          let m1 := sectorSlot P (env.slot s.slots) s.m
          let m2 := { m1 with d := { m1.d with sector := (m1.d.sector + 1) % 256 } }
          forLoop P env fuel { m := m2, polls := s.polls + 2, slots := s.slots + 1 }
        else some { s with polls := s.polls + 2 }
      else some { s with polls := s.polls + 1 }
    else some s

/-- The loop `while(GET_DRVSEL())`, entered at its condition. -/
def whileLoop (P : Platform) (env : Env) : Nat → RunState → Option RunState
  | 0, _ => none
  | fuel + 1, s =>
    if env.drvsel s.polls then
      match forLoop P env fuel
          { s with polls := s.polls + 1, m := { s.m with d := { s.m.d with sector := 0 } } } with
      | none => none
      | some s1 => whileLoop P env fuel s1
    else some { s with polls := s.polls + 1 }

/-- The entry actions of `run`, up to `setup_timer1_for_write()`. -/
def entryActions (m : Machine) : Machine :=
  let m1 :=
    if m.d.isChanged then
      let m0 := { m with trace := m.trace ++ [Event.dskChange true] }
      if m.d.isReady || m.d.isVirtual then
        { m0 with d := { m0.d with toFloppyDisk := m0.d.toFloppyDisk.clrChanged } }
      else m0
    else m
  { m1 with trace := m1.trace ++ [Event.writeProt m1.d.isReadonly] }

/-- The exit actions of `run`: `SET_DSKCHANGE_HIGH(); SET_WRITEPROT_HIGH();`. -/
def exitActions (m : Machine) : Machine :=
  { m with trace := m.trace ++ [Event.dskChange false, Event.writeProt false] }

/-- Method `FloppyDrive::run()`. -/
def run (P : Platform) (env : Env) (fuel : Nat) (m : Machine) : Option Machine :=
  match whileLoop P env fuel { m := entryActions m, polls := 0, slots := 0 } with
  | none => none
  | some s => some (exitActions s.m)

/-- The engine state of a sector slot when the logical block address is
computed: side resolved, step edges taken, track change applied. -/
def slotStart (inp : SlotIn) (m : Machine) : Machine :=
  trackChangeStep (stepEdges inp.edges
    { m with d := { m.d with side := if inp.SIDE then 0 else 1 } })

/-- The frame a full-sector slot hands to `write_sector`: the fetched sector
with header, data mark, CRC and gap. -/
def fullSlotFrame (P : Platform) (inp : SlotIn) (m : Machine) : Buf :=
  frameFullSector P (prepareHeader P (slotStart inp m).d
    (getSectorData P inp.io (slotStart inp m).d (slotStart inp m).buf
      (lbaOf (slotStart inp m).d)).2.1)

/-! ## The select handler -/

/-- The drive-selection part of the shared state: which drives the selector
marks active. -/
structure DriveSelect where
  /-- Drive 0 is marked active. -/
  drive0 : Bool
  /-- Drive 1 is marked active. -/
  drive1 : Bool
  deriving DecidableEq, Repr

/-- Modelled from the spec: the macro `SEL_DRIVE0()` is defined in `fddEMU.h`,
which is not among the source files.  The spec has the handler write the
resolved selector (which of up to two drives, or none, is addressed): drive 0
becomes the addressed drive. -/
def SEL_DRIVE0 (_ : DriveSelect) : DriveSelect := { drive0 := true, drive1 := false }

/-- Modelled from the spec: the macro `SEL_DRIVE1()` of `fddEMU.h`; drive 1
becomes the addressed drive. -/
def SEL_DRIVE1 (_ : DriveSelect) : DriveSelect := { drive0 := false, drive1 := true }

/-- Modelled from the spec: the macro `CLR_DRVSEL()` of `fddEMU.h`; no drive is
addressed. -/
def CLR_DRVSEL (_ : DriveSelect) : DriveSelect := { drive0 := false, drive1 := false }

/-- The line levels the select handler samples: `IS_SELECTA()`, `IS_SELECTB()`
and `IS_MOTORA()`. -/
structure SelectLines where
  /-- Value of `IS_SELECTA()`. -/
  selectA : Bool
  /-- Value of `IS_SELECTB()`. -/
  selectB : Bool
  /-- Value of `IS_MOTORA()`. -/
  motorA : Bool

/-- The pin change interrupt routine `ISR(PCINT2_vect)`, for a build with
(`true`) or without `ENABLE_DRIVE_B`. -/
def selectISR (enableDriveB : Bool) (l : SelectLines) (s : DriveSelect) : DriveSelect :=
  if enableDriveB then
    if l.selectA then SEL_DRIVE0 s
    else if l.selectB then SEL_DRIVE1 s
    else CLR_DRVSEL s
  else
    if l.selectA && l.motorA then SEL_DRIVE0 s
    else CLR_DRVSEL s

/-- The selector after each of a sequence of handler invocations, in order. -/
def selectTrace (enableDriveB : Bool) : List SelectLines → DriveSelect → List DriveSelect
  | [], _ => []
  | l :: rest, s =>
    selectISR enableDriveB l s :: selectTrace enableDriveB rest (selectISR enableDriveB l s)

/-- What the claim asks of the selector after an invocation with the lines `l`
in two-drive mode: not both drives, drive 0 when SELECT-A is asserted, drive 1
when only SELECT-B is, none when neither is. -/
def selectorResolved (l : SelectLines) (s : DriveSelect) : Bool :=
  !(s.drive0 && s.drive1)
    && (s == if l.selectA then { drive0 := true, drive1 := false }
             else if l.selectB then { drive0 := false, drive1 := true }
             else { drive0 := false, drive1 := false })

/-! ## Eject -/

/-- Modelled from the spec: `FloppyDisk::eject()` is declared in `FloppyDisk.h`
and defined outside the source files.  The spec: `eject` clears identity and
flags, forcing CHANGED and clearing READY, and leaves the geometry fields
stale.  (The file name is not part of this model.) -/
def FloppyDisk.eject (d : FloppyDisk) : FloppyDisk :=
  { d with flags := FD_CHANGED }

/-- Method `FloppyDrive::eject()`:
`FloppyDisk::eject(); track = 0; side = 0; sector = 0;`. -/
def FloppyDrive.eject (d : FloppyDrive) : FloppyDrive :=
  { d with toFloppyDisk := d.toFloppyDisk.eject, track := 0, side := 0, sector := 0 }

/-! ## Output levels -/

/-- The TRACK0 level after a trace: asserted (`true`) when the last
`SET_TRACK0_LOW()` / `SET_TRACK0_HIGH()` of the trace drove it low; `init` is
the level before the trace (after `initFDDpins` the pin is an input, that is,
released: not asserted). -/
def track0Asserted (init : Bool) (trace : List Event) : Bool :=
  trace.foldl (fun lvl e => match e with
    | Event.track0 low => low
    | _ => lvl) init

/-- The TRACK0 writes of a trace, in order. -/
def track0Writes : List Event → List Bool
  | [] => []
  | Event.track0 low :: rest => low :: track0Writes rest
  | _ :: rest => track0Writes rest

/-- An event that is not a TRACK0 write. -/
def Event.notTrack0 : Event → Bool
  | Event.track0 _ => false
  | _ => true

/-! ## The consumption of the pending track change, statement by statement -/

/-- The signed count of the valid edges of a run of step interrupts: `+1` for
an edge with `IS_STEP()` and `STEPDIR()` false, `-1` for one with `IS_STEP()`
and `STEPDIR()` true, nothing for an edge that fails `IS_STEP()`. -/
def signedCount (edges : List (Bool × Bool)) : Int :=
  (edges.map (fun e => if e.1 then (if e.2 then (-1 : Int) else 1) else 0)).sum

/-- The step interrupts that arrive around the three statements
`CLR_TRACKCHANGED(); track += iTrack; iTrack = 0;` of `run`.  Interrupts are
enabled there, and the handler runs to completion between two accesses of the
shared variables. -/
structure ConsumeSchedule where
  /-- Interrupts taken before `CLR_TRACKCHANGED()`. -/
  beforeClear : List (Bool × Bool)
  /-- Interrupts taken between `CLR_TRACKCHANGED()` and the read of `iTrack`
  in `track += iTrack`. -/
  afterClear : List (Bool × Bool)
  /-- Interrupts taken between the read of `iTrack` and `iTrack = 0`. -/
  afterAdd : List (Bool × Bool)
  /-- Interrupts taken after `iTrack = 0`. -/
  afterReset : List (Bool × Bool)

/-- The `if (IS_TRACKCHANGED())` block of `run`, entered (the flag was read as
set), with step interrupts in between its statements: the engine afterwards and
the delta that was added to `track`. -/
def consumeInterleaved (sch : ConsumeSchedule) (m : Machine) : Machine × Int :=
  let m0 := stepEdges sch.beforeClear m
  let m1 := stepEdges sch.afterClear { m0 with trackChanged := false }
  let m2 := { m1 with d := { m1.d with track := m1.d.track + m1.iTrack } }
  let m3 := stepEdges sch.afterAdd m2
  let m4 := { m3 with iTrack := 0 }
  let t := clampTrack m4.d.numTrack m4.d.track
  let m5 := { m4 with
    d := { m4.d with track := t }
    trace := m4.trace ++
      [Event.track0 (t == 0), Event.dskChange (!(m4.d.isReady || m4.d.isVirtual))] }
  (stepEdges sch.afterReset m5, m1.iTrack)

/-! ## Sample inputs -/

/-- A READY drive with an 80-track, 9-sector image at store offset 0, head at
track 0. -/
def readyDrive : FloppyDrive :=
  { flags := FD_READY, numTrack := 80, numSec := 9, startSector := 0,
    track := 0, side := 0, sector := 0, isVirtual := false }

/-- A buffer with the data mark `0xFB` in `sectorData.id` and zero bytes
elsewhere. -/
def zeroBuf : Buf := fun a => if a = OFF_ID then 0xFB else 0

/-- The buffer `zeroBuf` with a stored CRC whose high byte is the high byte of
the recomputed CRC and whose low byte is the recomputed low byte plus one. -/
def halfMatchBuf (P : Platform) : Buf :=
  poke (poke zeroBuf OFF_CRCHI (crcAt P zeroBuf OFF_ID 513 / 256))
    OFF_CRCLO (crcAt P zeroBuf OFF_ID 513 % 256 + 1)

/-- A store that accepts every access and delivers zero bytes. -/
def okStore : StoreIO :=
  { read := fun _ _ => (0, fun _ => 0), write := fun _ _ _ => 0 }

/-- The engine at rest on a drive: no pending track delta, empty trace. -/
def machineAt (d : FloppyDrive) : Machine :=
  { d := d, iTrack := 0, trackChanged := false, buf := zeroBuf, trace := [] }

/-- A drive with the largest geometry the 8-bit fields hold, head at a given
position. -/
def bigDrive (track : Int) (side sector : Nat) : FloppyDrive :=
  { flags := FD_READY, numTrack := 255, numSec := 255, startSector := 0,
    track := track, side := side, sector := sector, isVirtual := false }

/-- A stand-in checksum for evaluating the model on samples (the sum of the
bytes plus a start value); the theorems hold for every `calc_crc`. -/
def sampleCrc (bytes : List Nat) : Nat := bytes.sum + 0x1234

/-- A sector slot in which the host does not write: SIDE reads high, no step
edge, both `write_sector` calls return 0. -/
def idleSlot : SlotIn :=
  { SIDE := true, edges := [], io := okStore,
    write1 := 0, read1 := fun b => (0, b), write2 := 0, read2 := fun b => (0, b) }

/-- A sector slot in which the host writes and the read-back returns the
buffer as it was sent, with status 0. -/
def writeSlot : SlotIn :=
  { SIDE := true, edges := [], io := okStore,
    write1 := 1, read1 := fun b => (0, b), write2 := 1, read2 := fun b => (0, b) }

/-- The byte in front of the payload of every frame handed to the transceiver
(the frame at `ptr` has its mark at `ptr + 8`), in program order. -/
def markBytes : List Event → List Nat
  | [] => []
  | Event.transmit ptr snapshot :: rest => snapshot (ptr + 8) :: markBytes rest
  | _ :: rest => markBytes rest

/-- A buffer with a different byte at every offset below 251. -/
def rampBuf : Buf := fun a => a % 251

/-- Number of `setSectorData` calls in a trace: each call starts with
`debugPrintSector('W')`, and nothing else issues that event. -/
def persistCalls : List Event → Nat
  | [] => 0
  | Event.debugSector c :: rest => (if c = 'W' then 1 else 0) + persistCalls rest
  | _ :: rest => persistCalls rest

/-- The host keeps the drive selected for the first nine `GET_DRVSEL()` reads
(the `while` test and two tests for each of the sectors 0..3) and drops SELECT
afterwards; it never writes. -/
def dropAfterSector3 : Env :=
  { drvsel := fun p => decide (p < 9), slot := fun _ => idleSlot }

/-- The host has dropped SELECT for good. -/
def deselectedEnv : Env :=
  { drvsel := fun _ => false, slot := fun _ => idleSlot }

/-- The host keeps the drive selected for one revolution of nine sectors (the
`while` test and two tests for each sector) and drops SELECT afterwards; it
never steps and never writes. -/
def oneRevolution : Env :=
  { drvsel := fun p => decide (p < 19), slot := fun _ => idleSlot }

/-- The sample drive after the head was moved to track 5 (TRACK0 driven high
then) and the disk was ejected. -/
def ejectedMachine : Machine :=
  { d := ({ readyDrive with track := 5 } : FloppyDrive).eject, iTrack := 0,
    trackChanged := false, buf := zeroBuf, trace := [Event.track0 false] }

/-- A sector slot in which the host writes the first half only and the
read-back returns the frame as sent, with status 0. -/
def firstHalfWriteSlot : SlotIn :=
  { SIDE := true, edges := [], io := okStore,
    write1 := 1, read1 := fun b => (0, b), write2 := 0, read2 := fun b => (0, b) }

/-- The CRC `setSectorData` recomputes when the first half of the all-zero
sector comes back unmodified: over `sectorData.id` and the 512 bytes of
`sectorData.data`, the first half's CRC and gap bytes included. -/
def firstHalfCrc (P : Platform) : Nat :=
  crcAt P (frameFirstHalf P zeroBuf) OFF_ID 513

/-- The all-zero sector with left-over `crcHI`, `crcLO` bytes that both differ
from what `setSectorData` recomputes after the first half. -/
def staleCrcBuf (P : Platform) : Buf :=
  poke (poke zeroBuf OFF_CRCHI (firstHalfCrc P / 256 + 1)) OFF_CRCLO (firstHalfCrc P % 256 + 1)

/-- The all-zero sector with left-over `crcHI`, `crcLO` bytes that happen to
equal what `setSectorData` recomputes after the first half. -/
def luckyCrcBuf (P : Platform) : Buf :=
  poke (poke zeroBuf OFF_CRCHI (firstHalfCrc P / 256)) OFF_CRCLO (firstHalfCrc P % 256)

/-- The byte at index `i` of every block handed to a store, in order. -/
def writtenBytes (i : Nat) : List Event → List Nat
  | [] => []
  | Event.storeWrite _ _ data :: rest => data i :: writtenBytes i rest
  | _ :: rest => writtenBytes i rest

/-! # Theorems -/

/-! ## Buffer lemmas -/

theorem peekN_congr (b1 b2 : Buf) (p n : Nat)
    (h : ∀ a, p ≤ a → a < p + n → b1 a = b2 a) : peekN b1 p n = peekN b2 p n := by
  unfold peekN
  apply List.map_congr_left
  intro i hi
  exact h (p + i) (Nat.le_add_right p i) (by have := List.mem_range.mp hi; omega)

theorem peekN_poke_outside (buf : Buf) (q v p n : Nat) (h : q < p ∨ p + n ≤ q) :
    peekN (poke buf q v) p n = peekN buf p n := by
  apply peekN_congr
  intro a h1 h2
  have : a ≠ q := by omega
  simp [poke, this]

theorem crcAt_lt (P : Platform) (buf : Buf) (p n : Nat) : crcAt P buf p n < 65536 := by
  unfold crcAt
  exact Nat.mod_lt _ (by decide)

/-- The `int16_t` round trip of a CRC: high byte. -/
theorem toUInt8_hi (c : Nat) (h : c < 65536) : toUInt8 (toInt16 (c : Int) / 256) = c / 256 := by
  unfold toUInt8 toInt16
  omega

/-- The `int16_t` round trip of a CRC: low byte. -/
theorem toUInt8_lo (c : Nat) : toUInt8 (toInt16 (c : Int) % 256) = c % 256 := by
  unfold toUInt8 toInt16
  omega

/-! ## C1: the CRC gate of `setSectorData` -/

/-- C1 (code defect): `setSectorData` tests the two stored CRC bytes with `||`.
For every CRC function, on a READY drive in full-sector mode the buffer
`halfMatchBuf` has a stored low CRC byte that differs from the recomputed one,
and yet `setSectorData` issues a write to the physical store and returns the
status of the store (0 here), not the error status. -/
theorem setSectorData_writes_with_one_matching_crc_byte :
    ∀ calc_crc : List Nat → Nat,
      halfMatchBuf ⟨calc_crc, false, false⟩ OFF_CRCLO
          ≠ crcAt ⟨calc_crc, false, false⟩ (halfMatchBuf ⟨calc_crc, false, false⟩) OFF_ID 513 % 256
      ∧ ((setSectorData ⟨calc_crc, false, false⟩ okStore readyDrive
            (halfMatchBuf ⟨calc_crc, false, false⟩) 0).2.map Event.location
          = [none, some (Backing.physical, 0)])
      ∧ (setSectorData ⟨calc_crc, false, false⟩ okStore readyDrive
            (halfMatchBuf ⟨calc_crc, false, false⟩) 0).1 = 0 := by
  intro calc_crc
  have hcrc : crcAt ⟨calc_crc, false, false⟩ (halfMatchBuf ⟨calc_crc, false, false⟩) OFF_ID 513
      = crcAt ⟨calc_crc, false, false⟩ zeroBuf OFF_ID 513 := by
    unfold crcAt halfMatchBuf
    rw [peekN_poke_outside _ _ _ _ _ (by decide), peekN_poke_outside _ _ _ _ _ (by decide)]
  have hlt := crcAt_lt ⟨calc_crc, false, false⟩ zeroBuf OFF_ID 513
  have hhi : halfMatchBuf ⟨calc_crc, false, false⟩ OFF_CRCHI
      = crcAt ⟨calc_crc, false, false⟩ zeroBuf OFF_ID 513 / 256 := by
    simp only [halfMatchBuf, poke, OFF_CRCHI, OFF_CRCLO]
    simp
    omega
  have hlo : halfMatchBuf ⟨calc_crc, false, false⟩ OFF_CRCLO
      = (crcAt ⟨calc_crc, false, false⟩ zeroBuf OFF_ID 513 % 256 + 1) % 256 := by
    simp only [halfMatchBuf, poke, OFF_CRCLO]
    simp
  have hacc : crcAccepted ⟨calc_crc, false, false⟩ (halfMatchBuf ⟨calc_crc, false, false⟩) = true := by
    simp only [crcAccepted, hcrc, hhi]
    simp
  refine ⟨?_, ?_, ?_⟩
  · rw [hcrc, hlo]; omega
  · simp [setSectorData, hacc, readyDrive, FloppyDisk.isReady, FD_READY, okStore, physAddr,
      Event.location]
  · simp [setSectorData, hacc, readyDrive, FloppyDisk.isReady, FD_READY, okStore]

/-! ## C4: address resolution of the read and write paths -/

/-- C4: for every lba, buffer and drive state, `getSectorData` and
`setSectorData` (when its CRC test passes) access the same location.  READY:
the physical store at `startSector + (lba >> 1)` in half-sector mode and at
`startSector + lba` otherwise.  Not READY with a virtual image mounted (the
`ENABLE_VFFS` branch): the virtual store at `lba` itself.  Neither: no store
access at all, and both return the non-zero status `FR_DISK_ERR`. -/
theorem sector_address_resolution (P : Platform) (io : StoreIO) (d : FloppyDrive) (buf : Buf)
    (lba : Int) :
    (getSectorData P io d buf lba).2.2.filter Event.isStoreAccess
        = (if d.isReady then
            [Event.storeRead Backing.physical
              (d.startSector + (if P.IS_HALFSECTOR then lba / 2 else lba))]
           else if (P.ENABLE_VFFS && d.isVirtual) then [Event.storeRead Backing.virtual lba]
           else [])
    ∧ (setSectorData P io d buf lba).2.filter Event.isStoreAccess
        = (if crcAccepted P buf then
            (if d.isReady then
              [Event.storeWrite Backing.physical
                (d.startSector + (if P.IS_HALFSECTOR then lba / 2 else lba))
                (fun i => buf (OFF_DATA + i))]
             else if (P.ENABLE_VFFS && d.isVirtual) then
              [Event.storeWrite Backing.virtual lba (fun i => buf (OFF_DATA + i))]
             else [])
           else [])
    ∧ (setSectorData P io d buf lba).2.filterMap Event.location
        = (if crcAccepted P buf then
            (getSectorData P io d buf lba).2.2.filterMap Event.location
           else [])
    ∧ (if d.isReady || (P.ENABLE_VFFS && d.isVirtual) then True
       else (getSectorData P io d buf lba).1 = FR_DISK_ERR
          ∧ (setSectorData P io d buf lba).1 = FR_DISK_ERR ∧ FR_DISK_ERR ≠ 0) := by
  refine ⟨?_, ?_, ?_, ?_⟩
  · unfold getSectorData physAddr
    by_cases hr : d.isReady = true
    · by_cases hh : P.IS_HALFSECTOR = true <;> by_cases hn : (io.read Backing.physical
          (if P.IS_HALFSECTOR = true then d.startSector + lba / 2 else d.startSector + lba)).1 = 0
        <;> simp [hr, hh, hn, Event.isStoreAccess]
    · by_cases hv : (P.ENABLE_VFFS && d.isVirtual) = true
      · simp [hr, hv, Event.isStoreAccess]
      · simp [hr, hv, Event.isStoreAccess]
  · unfold setSectorData physAddr
    by_cases hc : crcAccepted P buf = true
    · by_cases hr : d.isReady = true
      · by_cases hh : P.IS_HALFSECTOR = true <;> by_cases hn : io.write Backing.physical
            (if P.IS_HALFSECTOR = true then d.startSector + lba / 2 else d.startSector + lba)
            (fun i => buf (OFF_DATA + i)) = 0
          <;> simp [hc, hr, hh, hn, Event.isStoreAccess]
      · by_cases hv : (P.ENABLE_VFFS && d.isVirtual) = true
        · simp [hc, hr, hv, Event.isStoreAccess]
        · simp [hc, hr, hv, Event.isStoreAccess]
    · simp [hc, Event.isStoreAccess]
  · unfold setSectorData getSectorData physAddr
    by_cases hc : crcAccepted P buf = true
    · by_cases hr : d.isReady = true
      · by_cases hh : P.IS_HALFSECTOR = true <;> by_cases hn : io.write Backing.physical
            (if P.IS_HALFSECTOR = true then d.startSector + lba / 2 else d.startSector + lba)
            (fun i => buf (OFF_DATA + i)) = 0
          <;> by_cases hm : (io.read Backing.physical
            (if P.IS_HALFSECTOR = true then d.startSector + lba / 2 else d.startSector + lba)).1 = 0
          <;> simp [hc, hr, hh, hn, hm, Event.location] <;> simp_all [Event.location]
      · by_cases hv : (P.ENABLE_VFFS && d.isVirtual) = true
        · simp [hc, hr, hv, Event.location]
        · simp [hc, hr, hv, Event.location]
    · simp [hc, Event.location]
  · by_cases hr : d.isReady = true
    · simp [hr]
    · by_cases hv : (P.ENABLE_VFFS && d.isVirtual) = true
      · simp [hv]
      · have hv2 : (P.ENABLE_VFFS && d.isVirtual) = false := by simpa using hv
        have hr2 : d.isReady = false := by simpa using hr
        rw [hr2, hv2]
        simp only [Bool.or_self, Bool.false_eq_true, if_false]
        refine ⟨?_, ?_, by decide⟩
        · simp [getSectorData, hr2, hv2]
        · unfold setSectorData
          by_cases hc : crcAccepted P buf = true
          · simp [hc, hr2, hv2]
          · simp [hc]

/-! ## C2, C3: step edges and the track-change step -/

theorem toInt8_succ (x : Int) : toInt8 (toInt8 x + 1) = toInt8 (x + 1) := by
  unfold toInt8; omega

theorem toInt8_pred (x : Int) : toInt8 (toInt8 x - 1) = toInt8 (x - 1) := by
  unfold toInt8; omega

theorem toInt8_toInt8 (x : Int) : toInt8 (toInt8 x) = toInt8 x := by
  unfold toInt8; omega

/-- The head position after a track-change step with the flag set. -/
theorem trackChangeStep_track (m : Machine) (hc : m.trackChanged = true) :
    (trackChangeStep m).d.track = clampTrack m.d.numTrack (m.d.track + m.iTrack) := by
  simp [trackChangeStep, hc]

/-- The track-change step with the flag clear does nothing. -/
theorem trackChangeStep_idle (m : Machine) (hc : m.trackChanged = false) :
    trackChangeStep m = m := by
  simp [trackChangeStep, hc]

/-- After `n + 1` valid increment edges the accumulator holds the wrapped sum,
the flag is set and the drive object is untouched. -/
theorem stepEdges_inc (n : Nat) (m : Machine) :
    (stepEdges (List.replicate (n + 1) (true, false)) m).iTrack = toInt8 (m.iTrack + (n + 1))
    ∧ (stepEdges (List.replicate (n + 1) (true, false)) m).trackChanged = true
    ∧ (stepEdges (List.replicate (n + 1) (true, false)) m).d = m.d := by
  induction n generalizing m with
  | zero => simp [stepEdges, stepISR]
  | succ k ih =>
    have h := ih (stepISR true false m)
    have e : stepEdges (List.replicate (k + 1 + 1) (true, false)) m
        = stepEdges (List.replicate (k + 1) (true, false)) (stepISR true false m) := by
      simp [stepEdges, List.replicate_succ]
    rw [e]
    refine ⟨?_, h.2.1, ?_⟩
    · rw [h.1]
      simp only [stepISR, if_true]
      unfold toInt8
      push_cast
      omega
    · rw [h.2.2]; simp [stepISR]

/-- After `n + 1` valid decrement edges the accumulator holds the wrapped
difference. -/
theorem stepEdges_dec (n : Nat) (m : Machine) :
    (stepEdges (List.replicate (n + 1) (true, true)) m).iTrack = toInt8 (m.iTrack - (n + 1))
    ∧ (stepEdges (List.replicate (n + 1) (true, true)) m).trackChanged = true
    ∧ (stepEdges (List.replicate (n + 1) (true, true)) m).d = m.d := by
  induction n generalizing m with
  | zero => simp [stepEdges, stepISR]
  | succ k ih =>
    have h := ih (stepISR true true m)
    have e : stepEdges (List.replicate (k + 1 + 1) (true, true)) m
        = stepEdges (List.replicate (k + 1) (true, true)) (stepISR true true m) := by
      simp [stepEdges, List.replicate_succ]
    rw [e]
    refine ⟨?_, h.2.1, ?_⟩
    · rw [h.1]
      simp only [stepISR, if_true]
      unfold toInt8
      push_cast
      omega
    · rw [h.2.2]; simp [stepISR]

/-- C2 (counterexample): 300 valid increment edges from track 0 on the
80-track drive leave the 8-bit accumulator at 44, and the run loop then moves
the head to track 44, not to the saturated sum 79. -/
theorem three_hundred_steps_wrap :
    (stepEdges (List.replicate 300 (true, false)) (machineAt readyDrive)).iTrack = 44
    ∧ (trackChangeStep (stepEdges (List.replicate 300 (true, false)) (machineAt readyDrive))).d.track
        = 44
    ∧ (trackChangeStep (stepEdges (List.replicate 300 (true, false)) (machineAt readyDrive))).d.track
        ≠ min ((machineAt readyDrive).d.track + 300) ((readyDrive.numTrack : Int) - 1) := by
  have h := stepEdges_inc 299 (machineAt readyDrive)
  have hi : (stepEdges (List.replicate 300 (true, false)) (machineAt readyDrive)).iTrack = 44 := by
    rw [h.1]; decide
  have ht : (trackChangeStep
      (stepEdges (List.replicate 300 (true, false)) (machineAt readyDrive))).d.track = 44 := by
    rw [trackChangeStep_track _ h.2.1, hi, h.2.2]
    decide
  refine ⟨hi, ht, ?_⟩
  rw [ht]
  decide

/-- C2 (amended): with no delta pending and the head on a track of the medium,
`n` valid edges of one direction taken before the run loop consumes them move
the head to the saturated sum, as long as the count fits the 8-bit
accumulator: `n ≤ 127` increment edges give `min (track + n) (numTrack - 1)`,
`n ≤ 128` decrement edges give `max (track - n) 0`. -/
theorem steps_saturate_within_int8 (m : Machine) (n : Nat)
    (h0 : m.iTrack = 0) (hlo : 0 ≤ m.d.track) (hhi : m.d.track ≤ (m.d.numTrack : Int) - 1) :
    (n ≤ 127 →
      (trackChangeStep (stepEdges (List.replicate n (true, false)) m)).d.track
        = min (m.d.track + n) ((m.d.numTrack : Int) - 1))
    ∧ (n ≤ 128 →
      (trackChangeStep (stepEdges (List.replicate n (true, true)) m)).d.track
        = max (m.d.track - n) 0) := by
  cases n with
  | zero =>
    have e : ∀ p : Bool × Bool, stepEdges (List.replicate 0 p) m = m := by
      intro p; simp [stepEdges]
    simp only [e]
    have key : (trackChangeStep m).d.track = m.d.track := by
      by_cases hc : m.trackChanged = true
      · rw [trackChangeStep_track m hc, h0]
        unfold clampTrack
        split_ifs <;> omega
      · rw [trackChangeStep_idle m (by simpa using hc)]
    rw [key]
    constructor <;> intro _ <;> omega
  | succ k =>
    constructor
    · intro hk
      obtain ⟨h1, h2, h3⟩ := stepEdges_inc k m
      rw [trackChangeStep_track _ h2, h1, h3, h0]
      unfold clampTrack toInt8
      push_cast
      split_ifs <;> omega
    · intro hk
      obtain ⟨h1, h2, h3⟩ := stepEdges_dec k m
      rw [trackChangeStep_track _ h2, h1, h3, h0]
      unfold clampTrack toInt8
      push_cast
      split_ifs <;> omega

/-- C2 (amended), applied: 79 and more increment edges, up to 127, from track 0
of the 80-track drive reach track 79; here with 100 edges. -/
theorem steps_saturate_within_int8_witness :
    (trackChangeStep (stepEdges (List.replicate 100 (true, false)) (machineAt readyDrive))).d.track
      = min ((machineAt readyDrive).d.track + (100 : Nat)) (((machineAt readyDrive).d.numTrack : Int) - 1) :=
  (steps_saturate_within_int8 (machineAt readyDrive) 100 rfl (by decide) (by decide)).1 (by decide)

/-- C3: for every prior track, every pending delta and every `numTrack ≥ 1`,
the track-change step leaves `track` in `[0, numTrack - 1]`: the sum when it is
in range, 0 when the sum is negative, `numTrack - 1` when the sum is `numTrack`
or more; the pending delta and the flag are consumed. -/
theorem trackChangeStep_clamps (m : Machine) (hc : m.trackChanged = true)
    (hn : 1 ≤ m.d.numTrack) :
    0 ≤ (trackChangeStep m).d.track
    ∧ (trackChangeStep m).d.track ≤ (m.d.numTrack : Int) - 1
    ∧ (trackChangeStep m).d.numTrack = m.d.numTrack
    ∧ (0 ≤ m.d.track + m.iTrack → m.d.track + m.iTrack ≤ (m.d.numTrack : Int) - 1 →
        (trackChangeStep m).d.track = m.d.track + m.iTrack)
    ∧ (m.d.track + m.iTrack < 0 → (trackChangeStep m).d.track = 0)
    ∧ ((m.d.numTrack : Int) ≤ m.d.track + m.iTrack →
        (trackChangeStep m).d.track = (m.d.numTrack : Int) - 1)
    ∧ (trackChangeStep m).iTrack = 0 ∧ (trackChangeStep m).trackChanged = false := by
  have ht := trackChangeStep_track m hc
  have hrest : (trackChangeStep m).d.numTrack = m.d.numTrack ∧ (trackChangeStep m).iTrack = 0
      ∧ (trackChangeStep m).trackChanged = false := by
    simp [trackChangeStep, hc]
  rw [ht]
  unfold clampTrack
  refine ⟨?_, ?_, hrest.1, ?_, ?_, ?_, hrest.2.1, hrest.2.2⟩
  · split_ifs <;> omega
  · split_ifs <;> omega
  · intro h1 h2; split_ifs <;> omega
  · intro h1; split_ifs <;> omega
  · intro h1; split_ifs <;> omega

/-- C3, applied: a pending delta of -5 at track 3 of the 80-track drive. -/
theorem trackChangeStep_clamps_witness :
    (trackChangeStep { machineAt readyDrive with
        d := { readyDrive with track := 3 }, iTrack := -5, trackChanged := true }).d.track = 0 :=
  (trackChangeStep_clamps { machineAt readyDrive with
      d := { readyDrive with track := 3 }, iTrack := -5, trackChanged := true }
    rfl (by decide)).2.2.2.2.1 (by decide)

/-! ## C5: the logical block address -/

/-- C5 (counterexample): with the geometry `numTrack = numSec = 255`, the
position track 128, side 1, sector 1 has the exact address 65536, which the
16-bit `lba` holds as 0: it differs from the exact value and coincides with
the address of track 0, side 0, sector 0. -/
theorem lba_wraps_on_large_geometry :
    lbaOf (bigDrive 128 1 1) = 0
    ∧ ((bigDrive 128 1 1).track * 2 + ((bigDrive 128 1 1).side : Int))
        * ((bigDrive 128 1 1).numSec : Int) + ((bigDrive 128 1 1).sector : Int) = 65536
    ∧ lbaOf (bigDrive 128 1 1) = lbaOf (bigDrive 0 0 0)
    ∧ (bigDrive 128 1 1).track < ((bigDrive 128 1 1).numTrack : Int)
    ∧ (bigDrive 128 1 1).sector < (bigDrive 128 1 1).numSec := by
  decide

/-- Two positions of one geometry with the same exact address are the same
position. -/
theorem chs_injective (t t2 : Int) (s s2 c c2 N : Nat) (hs : s ≤ 1) (hs2 : s2 ≤ 1)
    (hc : c < N) (hc2 : c2 < N)
    (h : (t * 2 + (s : Int)) * (N : Int) + (c : Int) = (t2 * 2 + (s2 : Int)) * (N : Int) + (c2 : Int)) :
    t = t2 ∧ s = s2 ∧ c = c2 := by
  have hN : (0 : Int) < (N : Int) := by omega
  have ha : t * 2 + (s : Int) = t2 * 2 + (s2 : Int) := by
    rcases lt_trichotomy (t * 2 + (s : Int)) (t2 * 2 + (s2 : Int)) with hlt | heq | hgt
    · exfalso
      have h1 : (t * 2 + (s : Int) + 1) * (N : Int) ≤ (t2 * 2 + (s2 : Int)) * (N : Int) :=
        Int.mul_le_mul_of_nonneg_right (by omega) (le_of_lt hN)
      have h2 : (t * 2 + (s : Int) + 1) * (N : Int) = (t * 2 + (s : Int)) * (N : Int) + (N : Int) := by
        ring
      omega
    · exact heq
    · exfalso
      have h1 : (t2 * 2 + (s2 : Int) + 1) * (N : Int) ≤ (t * 2 + (s : Int)) * (N : Int) :=
        Int.mul_le_mul_of_nonneg_right (by omega) (le_of_lt hN)
      have h2 : (t2 * 2 + (s2 : Int) + 1) * (N : Int)
          = (t2 * 2 + (s2 : Int)) * (N : Int) + (N : Int) := by
        ring
      omega
  rw [ha] at h
  refine ⟨by omega, by omega, by omega⟩

/-- The exact address of a position of the medium lies below
`numTrack * 2 * numSec`. -/
theorem chs_bound (t : Int) (s c T N : Nat) (ht0 : 0 ≤ t) (ht : t < (T : Int)) (hs : s ≤ 1)
    (hc : c < N) :
    0 ≤ (t * 2 + (s : Int)) * (N : Int) + (c : Int)
    ∧ (t * 2 + (s : Int)) * (N : Int) + (c : Int) < (T : Int) * 2 * (N : Int) := by
  have hN : (0 : Int) ≤ (N : Int) := by omega
  have h1 : (t * 2 + (s : Int) + 1) * (N : Int) ≤ ((T : Int) * 2) * (N : Int) :=
    Int.mul_le_mul_of_nonneg_right (by omega) hN
  have h2 : (t * 2 + (s : Int) + 1) * (N : Int) = (t * 2 + (s : Int)) * (N : Int) + (N : Int) := by
    ring
  have h3 : 0 ≤ (t * 2 + (s : Int)) * (N : Int) := Int.mul_nonneg (by omega) hN
  constructor <;> omega

/-- C5 (amended): for every geometry whose sector count `numTrack * 2 * numSec`
is at most 32768, and every position with `0 ≤ track < numTrack`, `side ≤ 1`,
`sector < numSec`, the `lba` of the run loop is the exact integer
`(track*2 + side) * numSec + sector`, lies in `[0, numTrack*2*numSec)`, and two
such positions of one geometry with the same `lba` are the same position. -/
theorem lba_exact_within_int16 (d : FloppyDrive)
    (hg : d.numTrack * 2 * d.numSec ≤ 32768)
    (ht0 : 0 ≤ d.track) (ht : d.track < (d.numTrack : Int)) (hs : d.side ≤ 1)
    (hc : d.sector < d.numSec) :
    lbaOf d = (d.track * 2 + (d.side : Int)) * (d.numSec : Int) + (d.sector : Int)
    ∧ 0 ≤ lbaOf d
    ∧ lbaOf d < (d.numTrack : Int) * 2 * (d.numSec : Int)
    ∧ ∀ e : FloppyDrive, e.numTrack = d.numTrack → e.numSec = d.numSec →
        0 ≤ e.track → e.track < (e.numTrack : Int) → e.side ≤ 1 → e.sector < e.numSec →
        lbaOf e = lbaOf d → e.track = d.track ∧ e.side = d.side ∧ e.sector = d.sector := by
  have hg2 : (d.numTrack : Int) * 2 * (d.numSec : Int) ≤ 32768 := by exact_mod_cast hg
  have hb := chs_bound d.track d.side d.sector d.numTrack d.numSec ht0 ht hs hc
  have hx : lbaOf d = (d.track * 2 + (d.side : Int)) * (d.numSec : Int) + (d.sector : Int) := by
    unfold lbaOf toInt16
    omega
  refine ⟨hx, by omega, by omega, ?_⟩
  intro e hT hN et0 et es ec heq
  have hb2 := chs_bound e.track e.side e.sector e.numTrack e.numSec et0 et es ec
  rw [hT, hN] at hb2
  have hy : lbaOf e = (e.track * 2 + (e.side : Int)) * (d.numSec : Int) + (e.sector : Int) := by
    unfold lbaOf toInt16
    rw [hN]
    omega
  rw [hx, hy] at heq
  exact chs_injective e.track d.track e.side d.side e.sector d.sector d.numSec es hs
    (by omega) hc heq

/-- C5 (amended), applied: track 79, side 1, sector 8 of the 80-track,
9-sector drive has the address 1439, the last of its 1440 sectors. -/
theorem lba_exact_within_int16_witness :
    lbaOf { readyDrive with track := 79, side := 1, sector := 8 } = 1439 :=
  (lba_exact_within_int16 { readyDrive with track := 79, side := 1, sector := 8 }
    (by decide) (by decide) (by decide) (by decide) (by decide)).1.trans (by decide)

/-! ## C6: the sector header -/

theorem peekN_five (b : Buf) (p : Nat) :
    peekN b p 5 = [b p, b (p + 1), b (p + 2), b (p + 3), b (p + 4)] := by
  have h : List.range 5 = [0, 1, 2, 3, 4] := by decide
  simp [peekN, h]

theorem peekN_eight (b : Buf) (p : Nat) :
    peekN b p 8
      = [b p, b (p + 1), b (p + 2), b (p + 3), b (p + 4), b (p + 5), b (p + 6), b (p + 7)] := by
  have h : List.range 8 = [0, 1, 2, 3, 4, 5, 6, 7] := by decide
  simp [peekN, h]

/-- C6: for every track, side and 0-based sector index that fit their byte of
the header, the header prepared by the run loop is exactly the 8 bytes `0xFE`,
track, side, sector + 1, length code (1 in half-sector mode, 2 otherwise),
high byte of `C`, low byte of `C`, `0x4E`, where `C` is the 16-bit CRC of the
first five of those bytes. -/
theorem prepareHeader_bytes (P : Platform) (d : FloppyDrive) (buf : Buf)
    (ht0 : 0 ≤ d.track) (ht : d.track < 256) (hs : d.side < 256) (hc : d.sector < 255) :
    peekN (prepareHeader P d buf) OFF_HEADER 8
      = [0xFE, d.track.toNat, d.side, d.sector + 1, (if P.IS_HALFSECTOR then 1 else 2),
          (P.calc_crc [0xFE, d.track.toNat, d.side, d.sector + 1,
              (if P.IS_HALFSECTOR then 1 else 2)] % 65536) / 256,
          (P.calc_crc [0xFE, d.track.toNat, d.side, d.sector + 1,
              (if P.IS_HALFSECTOR then 1 else 2)] % 65536) % 256,
          0x4E] := by
  have hlen : (if P.IS_HALFSECTOR = true then 1 else 2) % 256
      = (if P.IS_HALFSECTOR = true then 1 else 2) := by
    split <;> rfl
  have htr : toUInt8 d.track % 256 = d.track.toNat := by
    unfold toUInt8; omega
  have hfive : peekN (poke (poke (poke (poke (poke buf (OFF_HEADER + 0) 0xFE) (OFF_HEADER + 1)
        (toUInt8 d.track)) (OFF_HEADER + 2) d.side) (OFF_HEADER + 3) (d.sector + 1))
        (OFF_HEADER + 4) (if P.IS_HALFSECTOR then 1 else 2)) OFF_HEADER 5
      = [0xFE, d.track.toNat, d.side, d.sector + 1, (if P.IS_HALFSECTOR then 1 else 2)] := by
    rw [peekN_five]
    simp only [poke, OFF_HEADER]
    simp [hlen, htr, Nat.mod_eq_of_lt hs, Nat.mod_eq_of_lt (show d.sector + 1 < 256 by omega)]
  have hlt : P.calc_crc [0xFE, d.track.toNat, d.side, d.sector + 1,
      (if P.IS_HALFSECTOR then 1 else 2)] % 65536 < 65536 := Nat.mod_lt _ (by decide)
  unfold prepareHeader
  simp only [crcAt, hfive]
  generalize P.calc_crc [0xFE, d.track.toNat, d.side, d.sector + 1,
      (if P.IS_HALFSECTOR then 1 else 2)] % 65536 = c at hlt ⊢
  have hhi : toUInt8 (toInt16 (c : Int) / 256) % 256 = c / 256 := by
    rw [toUInt8_hi c hlt]; omega
  have hlo : toUInt8 (toInt16 (c : Int) % 256) % 256 = c % 256 := by
    rw [toUInt8_lo c]; omega
  rw [peekN_eight]
  simp only [poke, OFF_HEADER]
  simp [hlen, htr, Nat.mod_eq_of_lt hs, Nat.mod_eq_of_lt (show d.sector + 1 < 256 by omega),
    hhi, hlo]

/-- C6, applied: track 0, side 0, sector index 0 in full-sector mode. -/
theorem prepareHeader_bytes_witness :
    peekN (prepareHeader ⟨sampleCrc, false, false⟩ readyDrive zeroBuf) OFF_HEADER 8
      = [0xFE, 0, 0, 1, 2, 0x13, 0x35, 0x4E] :=
  (prepareHeader_bytes ⟨sampleCrc, false, false⟩ readyDrive zeroBuf
    (by decide) (by decide) (by decide) (by decide)).trans (by decide)

/-! ## C7, C8: the half-sector branch -/

/-- The first-half framing saves the three bytes at the start of the second
half in the scratch area. -/
theorem frameFirstHalf_saved (P : Platform) (buf : Buf) (i : Nat) (hi : i < 3) :
    frameFirstHalf P buf (savedBytes + i) = buf (secondHalf + i) := by
  simp only [frameFirstHalf, poke, memcpy, savedBytes, secondHalf, firstHalf, OFF_DATA, OFF_EXTRA]
  have e : 524 + i - 524 = i := by omega
  rw [if_neg (by omega), if_neg (by omega), if_neg (by omega), if_pos (by omega), if_neg (by omega), e]

/-- The first-half framing overwrites the three bytes at the start of the
second half with the CRC of the first half and the gap byte. -/
theorem frameFirstHalf_trailer (P : Platform) (buf : Buf) :
    frameFirstHalf P buf (firstHalf - 1) = 0xFB
    ∧ frameFirstHalf P buf secondHalf
        = crcAt P (poke buf (firstHalf - 1) 0xFB) (firstHalf - 1) 257 / 256
    ∧ frameFirstHalf P buf (secondHalf + 1)
        = crcAt P (poke buf (firstHalf - 1) 0xFB) (firstHalf - 1) 257 % 256
    ∧ frameFirstHalf P buf (secondHalf + 2) = 0x4E := by
  have hlt := crcAt_lt P (poke buf (firstHalf - 1) 0xFB) (firstHalf - 1) 257
  have hhi := toUInt8_hi _ hlt
  have hlo := toUInt8_lo (crcAt P (poke buf (firstHalf - 1) 0xFB) (firstHalf - 1) 257)
  refine ⟨?_, ?_, ?_, ?_⟩
  · simp [frameFirstHalf, poke, memcpy, savedBytes, secondHalf, firstHalf, OFF_DATA, OFF_EXTRA]
  · simp only [frameFirstHalf, hhi, hlo]
    generalize crcAt P (poke buf (firstHalf - 1) 0xFB) (firstHalf - 1) 257 = c at hlt ⊢
    simp only [poke, secondHalf, firstHalf, OFF_DATA]
    simp
    omega
  · simp only [frameFirstHalf, hhi, hlo]
    generalize crcAt P (poke buf (firstHalf - 1) 0xFB) (firstHalf - 1) 257 = c at hlt ⊢
    simp only [poke, secondHalf, firstHalf, OFF_DATA]
    simp
  · simp only [frameFirstHalf]
    simp only [poke, secondHalf, firstHalf, OFF_DATA]
    simp

/-- The second-half framing puts the saved bytes back. -/
theorem frameSecondHalf_restored (P : Platform) (b : Buf) (i : Nat) (hi : i < 3) :
    frameSecondHalf P b (secondHalf + i) = b (savedBytes + i) := by
  simp only [frameSecondHalf, poke, memcpy, savedBytes, secondHalf, OFF_DATA, OFF_EXTRA]
  have e : 9 + 256 + i - (9 + 256) = i := by omega
  rw [if_neg (by omega), if_neg (by omega), if_neg (by omega), if_pos (by omega), e]

/-- Neither framing touches the byte in front of the second half. -/
theorem frames_keep_second_mark (P : Platform) (b : Buf) :
    frameFirstHalf P b (secondHalf - 1) = b (secondHalf - 1)
    ∧ frameSecondHalf P b (secondHalf - 1) = b (secondHalf - 1) := by
  constructor
  · simp [frameFirstHalf, poke, memcpy, savedBytes, secondHalf, firstHalf, OFF_DATA, OFF_EXTRA]
  · simp [frameSecondHalf, poke, memcpy, savedBytes, secondHalf, OFF_DATA, OFF_EXTRA]

/-- A `memcpy` leaves the bytes outside its destination alone. -/
theorem memcpy_outside (b : Buf) (dst src n a : Nat) (h : a < dst ∨ dst + n ≤ a) :
    memcpy b dst src n a = b a := by
  unfold memcpy
  rw [if_neg (by omega)]

/-- The block after a `write_sector` call leaves a byte alone when the
read-back does. -/
theorem hostWrite_keeps (P : Platform) (io : StoreIO) (d : FloppyDrive) (w : Int)
    (rd : Buf → Int × Buf) (ptr : Nat) (lba : Int) (f : Buf) (a : Nat)
    (h : (rd f).2 a = f a) :
    (if w > 0 then readBackAndSave P io d rd ptr lba f else (f, [])).1 a = f a := by
  by_cases hw : w > 0
  · rw [if_pos hw]
    unfold readBackAndSave
    by_cases hr : (rd f).1 ≠ 0
    · simp only [if_pos hr]; exact h
    · simp only [if_neg hr]; exact h
  · rw [if_neg hw]

/-- The buffer the half-sector branch leaves on an even sector index. -/
theorem halfSectorBranch_buf (P : Platform) (inp : SlotIn) (d : FloppyDrive) (lba : Int)
    (buf : Buf) (hs : d.sector % 2 = 0) :
    (halfSectorBranch P inp d lba buf).1
      = memcpy
          (if inp.write2 > 0 then
              readBackAndSave P inp.io d inp.read2 (secondHalf - 9) lba
                (frameSecondHalf P
                  (if inp.write1 > 0 then
                      readBackAndSave P inp.io d inp.read1 (firstHalf - 9) lba (frameFirstHalf P buf)
                    else (frameFirstHalf P buf, [])).1)
            else
              (frameSecondHalf P
                  (if inp.write1 > 0 then
                      readBackAndSave P inp.io d inp.read1 (firstHalf - 9) lba (frameFirstHalf P buf)
                    else (frameFirstHalf P buf, [])).1, [])).1
          (secondHalf - 9) savedBytes 9 := by
  unfold halfSectorBranch
  rw [if_pos hs]

/-- C7 (code defect): in half-sector mode, on an even sector index with an
all-zero payload and a host that does not write, the run loop hands two frames
to the transceiver, at `firstHalf - 9` and `secondHalf - 9`.  The byte in front
of the first payload is the mark `0xFB`; the byte in front of the second
payload is the payload byte `data[255] = 0x00`, since `secondHalf[-1]` is never
written.  This holds for every CRC function. -/
theorem second_half_frame_lacks_data_mark :
    ∀ calc_crc : List Nat → Nat,
      markBytes (halfSectorBranch ⟨calc_crc, true, false⟩ idleSlot readyDrive 0 zeroBuf).2
        = [0xFB, 0x00] := by
  intro calc_crc
  have h1 := (frameFirstHalf_trailer ⟨calc_crc, true, false⟩ zeroBuf).1
  have h2 := frames_keep_second_mark ⟨calc_crc, true, false⟩
  have hs : readyDrive.sector % 2 = 0 := by decide
  have hw1 : ¬ (idleSlot.write1 > 0) := by decide
  have hw2 : ¬ (idleSlot.write2 > 0) := by decide
  unfold halfSectorBranch
  rw [if_pos hs]
  simp only [if_neg hw1, if_neg hw2, List.append_nil, List.singleton_append, markBytes]
  have e1 : firstHalf - 9 + 8 = firstHalf - 1 := by decide
  have e2 : secondHalf - 9 + 8 = secondHalf - 1 := by decide
  rw [e1, e2, h1, (h2 _).2, (h2 _).1]
  rfl

/-- C8: in half-sector mode, for every buffer content and every even sector
index, if the read-backs of the transceiver leave the scratch bytes and the
start of the second half's payload as they are, then after both halves have
been processed the 3 bytes at the start of the second half are what they were
before the transfer, although the frame of the first half carries the CRC of
the first half and the gap byte `0x4E` in their place. -/
theorem half_sector_splice_restores (P : Platform) (inp : SlotIn) (d : FloppyDrive) (lba : Int)
    (buf : Buf) (hs : d.sector % 2 = 0)
    (h1 : ∀ b i, i < 3 → (inp.read1 b).2 (savedBytes + i) = b (savedBytes + i))
    (h2 : ∀ b i, i < 3 → (inp.read2 b).2 (secondHalf + i) = b (secondHalf + i)) :
    (∀ i, i < 3 → (halfSectorBranch P inp d lba buf).1 (secondHalf + i) = buf (secondHalf + i))
    ∧ (halfSectorBranch P inp d lba buf).2.head? = some (Event.transmit (firstHalf - 9) (frameFirstHalf P buf))
    ∧ frameFirstHalf P buf secondHalf
        = crcAt P (poke buf (firstHalf - 1) 0xFB) (firstHalf - 1) 257 / 256
    ∧ frameFirstHalf P buf (secondHalf + 1)
        = crcAt P (poke buf (firstHalf - 1) 0xFB) (firstHalf - 1) 257 % 256
    ∧ frameFirstHalf P buf (secondHalf + 2) = 0x4E := by
  have ht := frameFirstHalf_trailer P buf
  refine ⟨?_, ?_, ht.2.1, ht.2.2.1, ht.2.2.2⟩
  · intro i hi
    rw [halfSectorBranch_buf P inp d lba buf hs,
      memcpy_outside _ _ _ _ _ (Or.inr (by simp only [secondHalf, OFF_DATA]; omega)),
      hostWrite_keeps _ _ _ _ _ _ _ _ _ (h2 _ i hi),
      frameSecondHalf_restored P _ i hi,
      hostWrite_keeps _ _ _ _ _ _ _ _ _ (h1 _ i hi),
      frameFirstHalf_saved P buf i hi]
  · unfold halfSectorBranch
    rw [if_pos hs]
    simp

/-- C8, applied: the host writes both halves, the read-backs return the
frames as sent. -/
theorem half_sector_splice_restores_witness :
    (halfSectorBranch ⟨sampleCrc, true, false⟩ writeSlot readyDrive 0 rampBuf).1 (secondHalf + 1)
      = rampBuf (secondHalf + 1) :=
  (half_sector_splice_restores ⟨sampleCrc, true, false⟩ writeSlot readyDrive 0 rampBuf
    (by decide) (fun _ _ _ => rfl) (fun _ _ _ => rfl)).1 1 (by decide)

/-! ## C9: deselection -/

/-- The sector loop entered while the selector reads "not selected" from now on
returns at once, with the engine state untouched. -/
theorem forLoop_deselected (P : Platform) (env : Env) (s : RunState) (fuel : Nat)
    (hsel : ∀ p, s.polls ≤ p → env.drvsel p = false) :
    ∃ s1, forLoop P env (fuel + 1) s = some s1 ∧ s1.m = s.m ∧ s1.slots = s.slots
      ∧ s.polls ≤ s1.polls := by
  unfold forLoop
  by_cases hlt : s.m.d.sector < s.m.d.numSec
  · rw [if_pos hlt]
    have h0 : ¬ (env.drvsel s.polls = true) := by rw [hsel s.polls (le_refl _)]; decide
    rw [if_neg h0]
    exact ⟨_, rfl, rfl, rfl, Nat.le_succ _⟩
  · rw [if_neg hlt]
    exact ⟨_, rfl, rfl, rfl, le_refl _⟩

/-- The selection loop entered while the selector reads "not selected" returns
at once, with the engine state untouched. -/
theorem whileLoop_deselected (P : Platform) (env : Env) (s : RunState) (fuel : Nat)
    (hsel : env.drvsel s.polls = false) :
    whileLoop P env (fuel + 1) s = some { s with polls := s.polls + 1 } := by
  unfold whileLoop
  have h0 : ¬ (env.drvsel s.polls = true) := by rw [hsel]; decide
  rw [if_neg h0]

/-- C9: for every drive state (so for every `numSec` and every sector index
`k` the loop has reached) and every remaining fuel, if the selector reads as
not selected from the current point on, the sector loop returns without
processing a slot (the engine state, trace included, is untouched, so no store
read, no transmission and no store write is issued) and the selection loop
then returns too.  With `numSec = 9` and SELECT dropped after sector 3, `run`
returns and exactly the sectors 0..3 were read and transmitted, followed by
the exit actions only. -/
theorem deselection_stops_the_loop (P : Platform) (env : Env) (s : RunState) (fuel : Nat)
    (hsel : ∀ p, s.polls ≤ p → env.drvsel p = false) :
    (∃ s1 s2, forLoop P env (fuel + 1) s = some s1 ∧ s1.m = s.m ∧ s1.slots = s.slots
        ∧ whileLoop P env (fuel + 1) s1 = some s2 ∧ s2.m = s.m ∧ s2.slots = s.slots)
    ∧ (run ⟨sampleCrc, false, false⟩ dropAfterSector3 6 (machineAt readyDrive)).map
          (fun m => m.trace.filterMap Event.location)
        = some [(Backing.physical, 0), (Backing.physical, 1), (Backing.physical, 2),
                (Backing.physical, 3)]
    ∧ (run ⟨sampleCrc, false, false⟩ dropAfterSector3 6 (machineAt readyDrive)).map
          (fun m => markBytes m.trace)
        = some [0xFB, 0xFB, 0xFB, 0xFB] := by
  refine ⟨?_, ?_, ?_⟩
  · obtain ⟨s1, h1, hm, hsl, hp⟩ := forLoop_deselected P env s fuel hsel
    refine ⟨s1, _, h1, hm, hsl, whileLoop_deselected P env s1 fuel (hsel _ hp), hm, hsl⟩
  · decide
  · decide

/-- C9, applied: the loop is at sector 4 of 9 and SELECT has been dropped. -/
theorem deselection_stops_the_loop_witness :
    ∃ s1 s2,
      forLoop ⟨sampleCrc, false, false⟩ deselectedEnv 1
          { m := machineAt { readyDrive with sector := 4 }, polls := 9, slots := 4 } = some s1
      ∧ s1.m = machineAt { readyDrive with sector := 4 } ∧ s1.slots = 4
      ∧ whileLoop ⟨sampleCrc, false, false⟩ deselectedEnv 1 s1 = some s2
      ∧ s2.m = machineAt { readyDrive with sector := 4 } ∧ s2.slots = 4 :=
  (deselection_stops_the_loop ⟨sampleCrc, false, false⟩ deselectedEnv
    { m := machineAt { readyDrive with sector := 4 }, polls := 9, slots := 4 } 0
    (fun _ _ => rfl)).1

/-! ## C10: verify and persist in full-sector mode -/

theorem persistCalls_append (a b : List Event) :
    persistCalls (a ++ b) = persistCalls a + persistCalls b := by
  induction a with
  | nil => simp [persistCalls]
  | cons e rest ih =>
    cases e <;> simp [persistCalls, ih]
    omega

/-- Every call of `setSectorData` is counted once. -/
theorem persistCalls_setSectorData (P : Platform) (io : StoreIO) (d : FloppyDrive) (buf : Buf)
    (lba : Int) : persistCalls (setSectorData P io d buf lba).2 = 1 := by
  unfold setSectorData
  split_ifs <;> simp [persistCalls] <;> split_ifs <;> simp [persistCalls]

/-- The read path writes nothing and does not call `setSectorData`. -/
theorem getSectorData_no_write (P : Platform) (io : StoreIO) (d : FloppyDrive) (buf : Buf)
    (lba : Int) :
    persistCalls (getSectorData P io d buf lba).2.2 = 0
    ∧ (getSectorData P io d buf lba).2.2.filter Event.isStoreWrite = [] := by
  unfold getSectorData
  split_ifs <;> simp [persistCalls, persistCalls_append, Event.isStoreWrite] <;>
    split_ifs <;> simp [persistCalls, Event.isStoreWrite]

theorem stepEdges_keeps (edges : List (Bool × Bool)) (m : Machine) :
    (stepEdges edges m).trace = m.trace ∧ (stepEdges edges m).d = m.d
    ∧ (stepEdges edges m).buf = m.buf := by
  induction edges generalizing m with
  | nil => simp [stepEdges]
  | cons e rest ih =>
    have h := ih (stepISR e.1 e.2 m)
    simpa [stepEdges, stepISR] using h

/-- The start of a slot adds only pin events to the trace and leaves the
sector index alone. -/
theorem slotStart_trace (inp : SlotIn) (m : Machine) :
    persistCalls (slotStart inp m).trace = persistCalls m.trace
    ∧ (slotStart inp m).trace.filter Event.isStoreWrite = m.trace.filter Event.isStoreWrite
    ∧ (slotStart inp m).d.sector = m.d.sector := by
  obtain ⟨h1, h2, _⟩ :=
    stepEdges_keeps inp.edges { m with d := { m.d with side := if inp.SIDE then 0 else 1 } }
  unfold slotStart
  generalize stepEdges inp.edges
      { m with d := { m.d with side := if inp.SIDE then 0 else 1 } } = m1 at h1 h2 ⊢
  have ht : m1.trace = m.trace := h1
  have hsec : m1.d.sector = m.d.sector := by rw [h2]
  by_cases hc : m1.trackChanged = true
  · simp [trackChangeStep, hc, ht, hsec, persistCalls_append, persistCalls, Event.isStoreWrite]
  · simp [trackChangeStep, hc, ht, hsec]

/-- The events of the full-sector branch. -/
theorem fullSectorBranch_events (P : Platform) (inp : SlotIn) (d : FloppyDrive) (lba : Int)
    (buf : Buf) :
    persistCalls (fullSectorBranch P inp d lba buf).2
        = (if inp.write1 > 0 ∧ (inp.read1 (frameFullSector P buf)).1 = 0 then 1 else 0)
    ∧ (fullSectorBranch P inp d lba buf).2.filter Event.isStoreWrite
        = (if inp.write1 > 0 ∧ (inp.read1 (frameFullSector P buf)).1 = 0 then
            (setSectorData P inp.io d (inp.read1 (frameFullSector P buf)).2 lba).2.filter
              Event.isStoreWrite
           else []) := by
  unfold fullSectorBranch readBackAndSave
  by_cases hw : inp.write1 > 0
  · by_cases hr : (inp.read1 (frameFullSector P buf)).1 = 0
    · simp [hw, hr, persistCalls, persistCalls_append, persistCalls_setSectorData,
        Event.isStoreWrite]
    · simp [hw, hr, persistCalls, Event.isStoreWrite]
  · by_cases hn : inp.write1 < 0
    · simp [hw, hn, persistCalls, Event.isStoreWrite]
    · simp [hw, hn, persistCalls, Event.isStoreWrite]

/-- The trace of a sector slot in full-sector mode. -/
theorem sectorSlot_full_trace (P : Platform) (hfull : P.IS_HALFSECTOR = false) (inp : SlotIn)
    (m : Machine) :
    (sectorSlot P inp m).trace
      = (slotStart inp m).trace
        ++ (getSectorData P inp.io (slotStart inp m).d (slotStart inp m).buf
              (lbaOf (slotStart inp m).d)).2.2
        ++ (fullSectorBranch P inp (slotStart inp m).d (lbaOf (slotStart inp m).d)
              (prepareHeader P (slotStart inp m).d
                (getSectorData P inp.io (slotStart inp m).d (slotStart inp m).buf
                  (lbaOf (slotStart inp m).d)).2.1)).2
    ∧ (sectorSlot P inp m).d = (slotStart inp m).d := by
  unfold sectorSlot
  simp [hfull, slotStart]

/-- C10: in full-sector mode, for every sector slot, the run loop calls
`setSectorData` if and only if `write_sector` returned a value above 0 and the
`read_sector` verify then returned 0 (the slot adds one call in that case and
none otherwise); without both, the slot issues no store write; and whatever
the transceiver returned, the sector loop goes on from the slot to its next
test with the sector index advanced by one. -/
theorem full_sector_persists_iff_verified (P : Platform) (hfull : P.IS_HALFSECTOR = false)
    (inp : SlotIn) (m : Machine) :
    persistCalls (sectorSlot P inp m).trace
        = persistCalls m.trace
          + (if inp.write1 > 0 ∧ (inp.read1 (fullSlotFrame P inp m)).1 = 0 then 1 else 0)
    ∧ (¬ (inp.write1 > 0 ∧ (inp.read1 (fullSlotFrame P inp m)).1 = 0) →
        (sectorSlot P inp m).trace.filter Event.isStoreWrite
          = m.trace.filter Event.isStoreWrite)
    ∧ (sectorSlot P inp m).d.sector = m.d.sector
    ∧ (∀ (env : Env) (fuel polls slots : Nat), env.slot slots = inp →
        m.d.sector < m.d.numSec → env.drvsel polls = true → env.drvsel (polls + 1) = true →
        forLoop P env (fuel + 1) { m := m, polls := polls, slots := slots }
          = forLoop P env fuel
              { m := { sectorSlot P inp m with
                        d := { (sectorSlot P inp m).d with
                                sector := ((sectorSlot P inp m).d.sector + 1) % 256 } },
                polls := polls + 2, slots := slots + 1 }) := by
  obtain ⟨ht, hd⟩ := sectorSlot_full_trace P hfull inp m
  obtain ⟨s1, s2, s3⟩ := slotStart_trace inp m
  have hg := getSectorData_no_write P inp.io (slotStart inp m).d (slotStart inp m).buf
    (lbaOf (slotStart inp m).d)
  have hb := fullSectorBranch_events P inp (slotStart inp m).d (lbaOf (slotStart inp m).d)
    (prepareHeader P (slotStart inp m).d
      (getSectorData P inp.io (slotStart inp m).d (slotStart inp m).buf
        (lbaOf (slotStart inp m).d)).2.1)
  refine ⟨?_, ?_, ?_, ?_⟩
  · rw [ht, persistCalls_append, persistCalls_append, s1, hg.1, hb.1]
    rfl
  · intro hno
    rw [ht, List.filter_append, List.filter_append, s2, hg.2, hb.2]
    have hno2 : ¬ (inp.write1 > 0 ∧ (inp.read1 (frameFullSector P (prepareHeader P
        (slotStart inp m).d (getSectorData P inp.io (slotStart inp m).d (slotStart inp m).buf
          (lbaOf (slotStart inp m).d)).2.1))).1 = 0) := hno
    rw [if_neg hno2]
    simp
  · rw [hd, s3]
  · intro env fuel polls slots hslot hlt h0 h1
    conv => lhs; unfold forLoop
    simp only [hlt, h0, h1, if_true, hslot]

/-- C10, applied: a slot in which the host writes and the verify succeeds adds
one `setSectorData` call. -/
theorem full_sector_persists_iff_verified_witness :
    persistCalls (sectorSlot ⟨sampleCrc, false, false⟩ writeSlot (machineAt readyDrive)).trace
      = persistCalls (machineAt readyDrive).trace
        + (if writeSlot.write1 > 0
            ∧ (writeSlot.read1
                (fullSlotFrame ⟨sampleCrc, false, false⟩ writeSlot (machineAt readyDrive))).1 = 0
           then 1 else 0) :=
  (full_sector_persists_iff_verified ⟨sampleCrc, false, false⟩ rfl writeSlot
    (machineAt readyDrive)).1

/-! ## C11: the select handler -/

/-- One invocation of the select handler in two-drive mode resolves the
selector from the lines alone. -/
theorem selectISR_resolved (l : SelectLines) (s : DriveSelect) :
    selectorResolved l (selectISR true l s) = true := by
  rcases l with ⟨a, b, c⟩
  rcases s with ⟨x, y⟩
  cases a <;> cases b <;> rfl

/-- C11: in two-drive mode, for every sequence of line states presented to the
select handler and every starting selector state (one with both drives marked
included), the selector after each invocation does not mark both drives: it
is drive 0 when SELECT-A is asserted, drive 1 when only SELECT-B is asserted,
none when neither is. -/
theorem select_handler_mutual_exclusion (lines : List SelectLines) (s : DriveSelect) :
    ((lines.zip (selectTrace true lines s)).all (fun p => selectorResolved p.1 p.2)) = true
    ∧ (selectTrace true lines s).length = lines.length
    ∧ ((selectTrace true lines s).all (fun t => !(t.drive0 && t.drive1))) = true := by
  induction lines generalizing s with
  | nil => simp [selectTrace]
  | cons l rest ih =>
    obtain ⟨h1, h2, h3⟩ := ih (selectISR true l s)
    have hr := selectISR_resolved l s
    refine ⟨?_, ?_, ?_⟩
    · simp only [selectTrace, List.zip_cons_cons, List.all_cons, hr, h1, Bool.and_self]
    · simp [selectTrace, h2]
    · have hx : (!((selectISR true l s).drive0 && (selectISR true l s).drive1)) = true := by
        have := hr
        unfold selectorResolved at this
        simp only [Bool.and_eq_true] at this
        exact this.1
      simp only [selectTrace, List.all_cons, hx, h3, Bool.and_self]

/-! ## C12: eject -/

/-- C12: for every prior drive state, after `FloppyDrive::eject()` the drive is
not READY, CHANGED is set, and track, side and sector are 0. -/
theorem eject_resets_drive (d : FloppyDrive) :
    d.eject.isReady = false ∧ d.eject.isChanged = true
    ∧ d.eject.track = 0 ∧ d.eject.side = 0 ∧ d.eject.sector = 0 := by
  refine ⟨?_, ?_, rfl, rfl, rfl⟩
  · simp [FloppyDrive.eject, FloppyDisk.eject, FloppyDisk.isReady, FD_CHANGED, FD_READY]
  · simp [FloppyDrive.eject, FloppyDisk.eject, FloppyDisk.isChanged, FD_CHANGED]

/-! ## C17: `clrChanged` -/

theorem clrChanged_flags (d : FloppyDisk) : d.clrChanged.flags = d.flags &&& 254 := rfl

theorem clrChanged_isChanged (d : FloppyDisk) : d.clrChanged.isChanged = false := by
  have h : (254 : Nat) &&& 1 = 0 := by decide
  simp [FloppyDisk.isChanged, clrChanged_flags, FD_CHANGED, Nat.and_assoc, h]

theorem clrChanged_isReady (d : FloppyDisk) : d.clrChanged.isReady = d.isReady := by
  have h : (254 : Nat) &&& 2 = 2 := by decide
  simp [FloppyDisk.isReady, clrChanged_flags, FD_READY, Nat.and_assoc, h]

theorem clrChanged_isReadonly (d : FloppyDisk) : d.clrChanged.isReadonly = d.isReadonly := by
  have h : (254 : Nat) &&& 4 = 4 := by decide
  simp [FloppyDisk.isReadonly, clrChanged_flags, FD_READONLY, Nat.and_assoc, h]

theorem testBit_254 (i : Nat) (h0 : i ≠ 0) (h8 : i < 8) : (254 : Nat).testBit i = true := by
  interval_cases i <;> first | exact absurd rfl h0 | decide

/-- C17: for every flags byte, `clrChanged()` clears only the CHANGED bit:
afterwards `isChanged()` is false, `isReady()` and `isReadonly()` return what
they returned before, bit 0 of `flags` is clear and every other bit is
unchanged, the other fields are untouched, and a second `clrChanged()` changes
nothing. -/
theorem clrChanged_clears_only_changed (d : FloppyDisk) (hb : d.flags < 256) :
    d.clrChanged.isChanged = false
    ∧ d.clrChanged.isReady = d.isReady
    ∧ d.clrChanged.isReadonly = d.isReadonly
    ∧ d.clrChanged.flags.testBit 0 = false
    ∧ (∀ i, i ≠ 0 → d.clrChanged.flags.testBit i = d.flags.testBit i)
    ∧ d.clrChanged.numTrack = d.numTrack ∧ d.clrChanged.numSec = d.numSec
    ∧ d.clrChanged.startSector = d.startSector
    ∧ d.clrChanged.clrChanged = d.clrChanged := by
  refine ⟨clrChanged_isChanged d, clrChanged_isReady d, clrChanged_isReadonly d, ?_, ?_,
    rfl, rfl, rfl, ?_⟩
  · rw [clrChanged_flags, Nat.testBit_and]
    have : (254 : Nat).testBit 0 = false := by decide
    rw [this, Bool.and_false]
  · intro i hi
    rw [clrChanged_flags, Nat.testBit_and]
    by_cases h8 : i < 8
    · rw [testBit_254 i hi h8, Bool.and_true]
    · have hlt : d.flags < 2 ^ i :=
        lt_of_lt_of_le hb (by
          have : (2 : Nat) ^ 8 ≤ 2 ^ i := Nat.pow_le_pow_right (by decide) (by omega)
          simpa using this)
      rw [Nat.testBit_lt_two_pow hlt, Bool.false_and]
  · have h : (254 : Nat) &&& 254 = 254 := by decide
    show ({ d.clrChanged with flags := d.clrChanged.flags &&& (255 - FD_CHANGED) } : FloppyDisk)
      = d.clrChanged
    have e : d.clrChanged.flags &&& (255 - FD_CHANGED) = d.clrChanged.flags := by
      show d.flags &&& 254 &&& 254 = d.flags &&& 254
      rw [Nat.and_assoc, h]
    rw [e]

/-- C17, applied: the flags byte with CHANGED, READY and READONLY set. -/
theorem clrChanged_clears_only_changed_witness :
    FloppyDisk.isChanged (FloppyDisk.clrChanged
        { flags := 7, numTrack := 80, numSec := 9, startSector := 0 }) = false
    ∧ FloppyDisk.isReady (FloppyDisk.clrChanged
        { flags := 7, numTrack := 80, numSec := 9, startSector := 0 })
      = FloppyDisk.isReady { flags := 7, numTrack := 80, numSec := 9, startSector := 0 } :=
  ⟨(clrChanged_clears_only_changed
      { flags := 7, numTrack := 80, numSec := 9, startSector := 0 } (by decide)).1,
   (clrChanged_clears_only_changed
      { flags := 7, numTrack := 80, numSec := 9, startSector := 0 } (by decide)).2.1⟩

/-! ## C16: the entry actions of `run` -/

/-- C16: on entry to `run`, for every flag state: with CHANGED set,
DISK-CHANGE is driven low, and CHANGED is cleared exactly when the drive is
READY or a virtual image is mounted; with CHANGED clear, DISK-CHANGE is not
driven and the flags are left as they are; READY and READONLY are never
modified; WRITE-PROTECT is driven low exactly when `isReadonly()` holds; the
other fields of the drive are untouched. -/
theorem entry_actions_acknowledge_change (m : Machine) :
    (entryActions m).trace
        = m.trace ++ (if m.d.isChanged then [Event.dskChange true] else [])
            ++ [Event.writeProt m.d.isReadonly]
    ∧ (entryActions m).d.isChanged
        = (m.d.isChanged && !(m.d.isReady || m.d.isVirtual))
    ∧ (entryActions m).d.flags
        = (if m.d.isChanged && (m.d.isReady || m.d.isVirtual) then m.d.flags &&& 254
           else m.d.flags)
    ∧ (entryActions m).d.isReady = m.d.isReady
    ∧ (entryActions m).d.isReadonly = m.d.isReadonly
    ∧ (entryActions m).d.track = m.d.track ∧ (entryActions m).d.side = m.d.side
    ∧ (entryActions m).d.sector = m.d.sector ∧ (entryActions m).d.numTrack = m.d.numTrack
    ∧ (entryActions m).d.numSec = m.d.numSec ∧ (entryActions m).buf = m.buf := by
  have hC := clrChanged_isChanged m.d.toFloppyDisk
  have hR := clrChanged_isReady m.d.toFloppyDisk
  have hO := clrChanged_isReadonly m.d.toFloppyDisk
  unfold entryActions
  by_cases hc : m.d.isChanged = true
  · by_cases hr : (m.d.isReady || m.d.isVirtual) = true
    · simp only [hc, hr, if_true]
      refine ⟨?_, ?_, ?_, ?_, ?_, ?_, ?_, ?_, ?_, ?_, ?_⟩ <;>
        first | rfl | trivial | simp [hO, hC, hR, clrChanged_flags]
    · have hr2 : (m.d.isReady || m.d.isVirtual) = false := by simpa using hr
      simp only [hc, hr2, if_true]
      refine ⟨?_, ?_, ?_, ?_, ?_, ?_, ?_, ?_, ?_, ?_, ?_⟩ <;>
        first | rfl | trivial
  · have hc2 : m.d.isChanged = false := by simpa using hc
    simp only [hc2]
    refine ⟨?_, ?_, ?_, ?_, ?_, ?_, ?_, ?_, ?_, ?_, ?_⟩ <;>
      first | rfl | trivial | simp [hc2]

/-! ## C15: the CRC round trip of a full sector -/

/-- The framing of a full sector leaves the 512 payload bytes alone. -/
theorem frameFullSector_payload (P : Platform) (buf : Buf) (i : Nat) (hi : i < 512) :
    frameFullSector P buf (OFF_DATA + i) = buf (OFF_DATA + i) := by
  simp only [frameFullSector, poke, OFF_DATA, OFF_ID, OFF_CRCHI, OFF_CRCLO, OFF_GAP]
  rw [if_neg (by omega), if_neg (by omega), if_neg (by omega), if_neg (by omega)]

/-- The mark, CRC and gap bytes of a framed full sector. -/
theorem frameFullSector_trailer (P : Platform) (buf : Buf) :
    frameFullSector P buf OFF_ID = 0xFB
    ∧ frameFullSector P buf OFF_CRCHI = crcAt P (poke buf OFF_ID 0xFB) OFF_ID 513 / 256
    ∧ frameFullSector P buf OFF_CRCLO = crcAt P (poke buf OFF_ID 0xFB) OFF_ID 513 % 256
    ∧ frameFullSector P buf OFF_GAP = 0x4E := by
  have hlt := crcAt_lt P (poke buf OFF_ID 0xFB) OFF_ID 513
  have hhi := toUInt8_hi _ hlt
  have hlo := toUInt8_lo (crcAt P (poke buf OFF_ID 0xFB) OFF_ID 513)
  refine ⟨?_, ?_, ?_, ?_⟩
  · simp [frameFullSector, poke, OFF_ID, OFF_CRCHI, OFF_CRCLO, OFF_GAP]
  · simp only [frameFullSector, hhi, hlo]
    generalize crcAt P (poke buf OFF_ID 0xFB) OFF_ID 513 = c at hlt ⊢
    simp only [poke, OFF_CRCHI, OFF_CRCLO, OFF_GAP]
    simp
    omega
  · simp only [frameFullSector, hhi, hlo]
    generalize crcAt P (poke buf OFF_ID 0xFB) OFF_ID 513 = c at hlt ⊢
    simp only [poke, OFF_CRCHI, OFF_CRCLO, OFF_GAP]
    simp
  · simp only [frameFullSector]
    simp only [poke, OFF_GAP]
    simp

/-- The CRC recomputed over a framed full sector is the CRC stored in it. -/
theorem frameFullSector_crc (P : Platform) (buf : Buf) :
    crcAt P (frameFullSector P buf) OFF_ID 513 = crcAt P (poke buf OFF_ID 0xFB) OFF_ID 513 := by
  have h : peekN (frameFullSector P buf) OFF_ID 513 = peekN (poke buf OFF_ID 0xFB) OFF_ID 513 := by
    unfold frameFullSector
    rw [peekN_poke_outside _ _ _ _ _ (by decide), peekN_poke_outside _ _ _ _ _ (by decide),
      peekN_poke_outside _ _ _ _ _ (by decide)]
  unfold crcAt
  rw [h]

/-- The store writes of `setSectorData` on a buffer that passes its CRC test. -/
theorem setSectorData_writes (P : Platform) (io : StoreIO) (d : FloppyDrive) (buf : Buf)
    (lba : Int) (hacc : crcAccepted P buf = true) :
    (setSectorData P io d buf lba).2.filter Event.isStoreWrite
      = (if d.isReady then
          [Event.storeWrite Backing.physical (physAddr P d lba) (fun i => buf (OFF_DATA + i))]
         else if (P.ENABLE_VFFS && d.isVirtual) then
          [Event.storeWrite Backing.virtual lba (fun i => buf (OFF_DATA + i))]
         else []) := by
  unfold setSectorData
  rw [if_pos hacc]
  by_cases hr : d.isReady = true
  · by_cases hn : io.write Backing.physical (physAddr P d lba) (fun i => buf (OFF_DATA + i)) = 0
    · simp [hr, hn, Event.isStoreWrite]
    · simp [hr, hn, Event.isStoreWrite]
  · by_cases hv : (P.ENABLE_VFFS && d.isVirtual) = true
    · simp [hr, hv, Event.isStoreWrite]
    · simp [hr, hv, Event.isStoreWrite]

/-- A buffer that fails the CRC test of `setSectorData` is not written. -/
theorem setSectorData_rejects (P : Platform) (io : StoreIO) (d : FloppyDrive) (buf : Buf)
    (lba : Int) (hacc : crcAccepted P buf = false) :
    (setSectorData P io d buf lba).2
      = [Event.debugSector 'W', Event.debugPrint "CRC error!\n"] := by
  unfold setSectorData
  simp [hacc]

/-- A framed full sector passes the CRC test of `setSectorData`. -/
theorem frameFullSector_accepted (P : Platform) (buf : Buf) :
    crcAccepted P (frameFullSector P buf) = true := by
  obtain ⟨_, h2, _, _⟩ := frameFullSector_trailer P buf
  unfold crcAccepted
  simp only [frameFullSector_crc, h2]
  simp

/-- C15: in full-sector mode, for every buffer content (so for every 512-byte
payload), the frame built for transmission has the mark `0xFB`, the high and
low byte of the CRC over mark and payload, and the gap `0x4E`; it passes the
CRC test of `setSectorData`; and when the host writes and the read-back hands
the frame back unmodified with status 0, the slot issues exactly one store
write, to the store the drive resolves to (physical at `startSector + lba` when
READY, virtual at `lba` when a virtual image is mounted), whose first 512
bytes are the original payload. -/
theorem full_sector_crc_round_trip (P : Platform) (hfull : P.IS_HALFSECTOR = false)
    (inp : SlotIn) (d : FloppyDrive) (lba : Int) (buf : Buf)
    (hw : inp.write1 > 0) (hr : inp.read1 (frameFullSector P buf) = (0, frameFullSector P buf)) :
    frameFullSector P buf OFF_ID = 0xFB
    ∧ frameFullSector P buf OFF_CRCHI = crcAt P (poke buf OFF_ID 0xFB) OFF_ID 513 / 256
    ∧ frameFullSector P buf OFF_CRCLO = crcAt P (poke buf OFF_ID 0xFB) OFF_ID 513 % 256
    ∧ frameFullSector P buf OFF_GAP = 0x4E
    ∧ crcAccepted P (frameFullSector P buf) = true
    ∧ (fullSectorBranch P inp d lba buf).2.filter Event.isStoreWrite
        = (if d.isReady then
            [Event.storeWrite Backing.physical (d.startSector + lba)
              (fun i => frameFullSector P buf (OFF_DATA + i))]
           else if (P.ENABLE_VFFS && d.isVirtual) then
            [Event.storeWrite Backing.virtual lba (fun i => frameFullSector P buf (OFF_DATA + i))]
           else [])
    ∧ (∀ i, i < 512 → frameFullSector P buf (OFF_DATA + i) = buf (OFF_DATA + i)) := by
  obtain ⟨t1, t2, t3, t4⟩ := frameFullSector_trailer P buf
  have hacc := frameFullSector_accepted P buf
  refine ⟨t1, t2, t3, t4, hacc, ?_, fun i hi => frameFullSector_payload P buf i hi⟩
  have hb := (fullSectorBranch_events P inp d lba buf).2
  have hcond : inp.write1 > 0 ∧ (inp.read1 (frameFullSector P buf)).1 = 0 := ⟨hw, by rw [hr]⟩
  rw [hb, if_pos hcond, hr]
  rw [setSectorData_writes P inp.io d _ lba hacc]
  simp [physAddr, hfull]

/-- C15, applied: the READY sample drive, the host writes sector 0 and the
read-back returns the frame as sent. -/
theorem full_sector_crc_round_trip_witness :
    (fullSectorBranch ⟨sampleCrc, false, false⟩ writeSlot readyDrive 0 zeroBuf).2.filter
        Event.isStoreWrite
      = (if readyDrive.isReady then
          [Event.storeWrite Backing.physical (readyDrive.startSector + 0)
            (fun i => frameFullSector ⟨sampleCrc, false, false⟩ zeroBuf (OFF_DATA + i))]
         else if ((⟨sampleCrc, false, false⟩ : Platform).ENABLE_VFFS && readyDrive.isVirtual) then
          [Event.storeWrite Backing.virtual 0
            (fun i => frameFullSector ⟨sampleCrc, false, false⟩ zeroBuf (OFF_DATA + i))]
         else []) :=
  (full_sector_crc_round_trip ⟨sampleCrc, false, false⟩ rfl writeSlot readyDrive 0 zeroBuf
    (by decide) rfl).2.2.2.2.2.1

/-! ## C14: an edge that fails the debounce test -/

/-- C14 (counterexample): on the engine at rest (no pending delta, flag clear)
an edge that fails the `IS_STEP()` test leaves `iTrack` at 0 but sets the
TRACKCHANGED flag, and the run loop then executes the track-change block: it
drives TRACK0 and DISK-CHANGE, which it does not do without the edge. -/
theorem failed_debounce_sets_flag :
    (stepISR false false (machineAt readyDrive)).iTrack = (machineAt readyDrive).iTrack
    ∧ (machineAt readyDrive).trackChanged = false
    ∧ (stepISR false false (machineAt readyDrive)).trackChanged = true
    ∧ (trackChangeStep (machineAt readyDrive)).trace.length = 0
    ∧ track0Writes (trackChangeStep (stepISR false false (machineAt readyDrive))).trace = [true]
    ∧ (trackChangeStep (stepISR false false (machineAt readyDrive))).trace.length = 2 := by
  decide

/-- C14 (amended): for every state of the shared variables, an edge that fails
the debounce test leaves the pending delta, the drive, the buffer and the
trace as they were and sets the TRACKCHANGED flag; the next track-change step
of the run loop applies the unchanged delta, clears delta and flag, and
drives TRACK0 (low when the clamped track is 0) and DISK-CHANGE (low when no
disk is present); with no delta pending and the head on a track of the medium
the track stays where it was. -/
theorem failed_debounce_keeps_delta (stepDir : Bool) (m : Machine) :
    (stepISR false stepDir m).iTrack = m.iTrack
    ∧ (stepISR false stepDir m).trackChanged = true
    ∧ (stepISR false stepDir m).d = m.d
    ∧ (stepISR false stepDir m).buf = m.buf
    ∧ (stepISR false stepDir m).trace = m.trace
    ∧ (trackChangeStep (stepISR false stepDir m)).d.track
        = clampTrack m.d.numTrack (m.d.track + m.iTrack)
    ∧ (trackChangeStep (stepISR false stepDir m)).trace
        = m.trace ++ [Event.track0 (clampTrack m.d.numTrack (m.d.track + m.iTrack) == 0),
                      Event.dskChange (!(m.d.isReady || m.d.isVirtual))]
    ∧ (trackChangeStep (stepISR false stepDir m)).iTrack = 0
    ∧ (trackChangeStep (stepISR false stepDir m)).trackChanged = false
    ∧ (m.iTrack = 0 → 0 ≤ m.d.track → m.d.track ≤ (m.d.numTrack : Int) - 1 →
        (trackChangeStep (stepISR false stepDir m)).d.track = m.d.track) := by
  have ht : (trackChangeStep (stepISR false stepDir m)).d.track
      = clampTrack m.d.numTrack (m.d.track + m.iTrack) := by
    simp [trackChangeStep, stepISR]
  refine ⟨by simp [stepISR], rfl, rfl, rfl, rfl, ht, by simp [trackChangeStep, stepISR],
    by simp [trackChangeStep, stepISR], by simp [trackChangeStep, stepISR], ?_⟩
  intro h0 hlo hhi
  rw [ht, h0]
  unfold clampTrack
  split_ifs <;> omega

/-- C14 (amended), applied: the head on track 3 of the sample drive, nothing
pending. -/
theorem failed_debounce_keeps_delta_witness :
    (trackChangeStep (stepISR false true
        (machineAt { readyDrive with track := 3 }))).d.track = 3 :=
  (failed_debounce_keeps_delta true (machineAt { readyDrive with track := 3 })).2.2.2.2.2.2.2.2.2
    rfl (by decide) (by decide)

/-! ## C13: the TRACK0 output -/

theorem track0Asserted_append (init : Bool) (a b : List Event) :
    track0Asserted init (a ++ b) = track0Asserted (track0Asserted init a) b := by
  simp [track0Asserted, List.foldl_append]

/-- Events other than TRACK0 writes leave the level alone. -/
theorem track0Asserted_quiet (init : Bool) (b : List Event)
    (h : b.all Event.notTrack0 = true) : track0Asserted init b = init := by
  induction b generalizing init with
  | nil => rfl
  | cons e rest ih =>
    simp only [List.all_cons, Bool.and_eq_true] at h
    have hr := ih init h.2
    cases e <;> first | exact hr | (simp [Event.notTrack0] at h)

theorem setSectorData_quiet (P : Platform) (io : StoreIO) (d : FloppyDrive) (buf : Buf)
    (lba : Int) : (setSectorData P io d buf lba).2.all Event.notTrack0 = true := by
  unfold setSectorData
  split_ifs <;> simp [Event.notTrack0]

theorem getSectorData_quiet (P : Platform) (io : StoreIO) (d : FloppyDrive) (buf : Buf)
    (lba : Int) : (getSectorData P io d buf lba).2.2.all Event.notTrack0 = true := by
  unfold getSectorData
  split_ifs <;> simp [Event.notTrack0]

theorem readBackAndSave_quiet (P : Platform) (io : StoreIO) (d : FloppyDrive)
    (rd : Buf → Int × Buf) (ptr : Nat) (lba : Int) (buf : Buf) :
    (readBackAndSave P io d rd ptr lba buf).2.all Event.notTrack0 = true := by
  have h := setSectorData_quiet P io d (rd buf).2 lba
  by_cases hr : (rd buf).1 ≠ 0
  · simp [readBackAndSave, hr, Event.notTrack0]
  · simp only [readBackAndSave, if_neg hr, List.all_append, List.all_cons, List.all_nil,
      Event.notTrack0, h, Bool.and_self]

theorem hostWrite_quiet (P : Platform) (io : StoreIO) (d : FloppyDrive) (w : Int)
    (rd : Buf → Int × Buf) (ptr : Nat) (lba : Int) (f : Buf) :
    (if w > 0 then readBackAndSave P io d rd ptr lba f else (f, [])).2.all Event.notTrack0
      = true := by
  split_ifs
  · exact readBackAndSave_quiet P io d rd ptr lba f
  · rfl

theorem fullSectorBranch_quiet (P : Platform) (inp : SlotIn) (d : FloppyDrive) (lba : Int)
    (buf : Buf) : (fullSectorBranch P inp d lba buf).2.all Event.notTrack0 = true := by
  have h := readBackAndSave_quiet P inp.io d inp.read1 OFF_HEADER lba (frameFullSector P buf)
  unfold fullSectorBranch
  by_cases hw : inp.write1 > 0
  · simp only [if_pos hw, List.all_append, List.all_cons, List.all_nil, Event.notTrack0, h,
      Bool.and_self]
  · by_cases hn : inp.write1 < 0
    · simp [hw, hn, Event.notTrack0]
    · simp [hw, hn, Event.notTrack0]

/-- The events of the half-sector branch on an even sector index. -/
theorem halfSectorBranch_events (P : Platform) (inp : SlotIn) (d : FloppyDrive) (lba : Int)
    (buf : Buf) (hs : d.sector % 2 = 0) :
    (halfSectorBranch P inp d lba buf).2
      = [Event.transmit (firstHalf - 9) (frameFirstHalf P buf)]
        ++ (if inp.write1 > 0 then
              readBackAndSave P inp.io d inp.read1 (firstHalf - 9) lba (frameFirstHalf P buf)
            else (frameFirstHalf P buf, [])).2
        ++ [Event.transmit (secondHalf - 9)
              (frameSecondHalf P
                (if inp.write1 > 0 then
                    readBackAndSave P inp.io d inp.read1 (firstHalf - 9) lba (frameFirstHalf P buf)
                  else (frameFirstHalf P buf, [])).1)]
        ++ (if inp.write2 > 0 then
              readBackAndSave P inp.io d inp.read2 (secondHalf - 9) lba
                (frameSecondHalf P
                  (if inp.write1 > 0 then
                      readBackAndSave P inp.io d inp.read1 (firstHalf - 9) lba (frameFirstHalf P buf)
                    else (frameFirstHalf P buf, [])).1)
            else
              (frameSecondHalf P
                  (if inp.write1 > 0 then
                      readBackAndSave P inp.io d inp.read1 (firstHalf - 9) lba (frameFirstHalf P buf)
                    else (frameFirstHalf P buf, [])).1, [])).2 := by
  unfold halfSectorBranch
  rw [if_pos hs]

theorem halfSectorBranch_quiet (P : Platform) (inp : SlotIn) (d : FloppyDrive) (lba : Int)
    (buf : Buf) : (halfSectorBranch P inp d lba buf).2.all Event.notTrack0 = true := by
  by_cases hs : d.sector % 2 = 0
  · rw [halfSectorBranch_events P inp d lba buf hs]
    simp only [List.all_append, List.all_cons, List.all_nil, Event.notTrack0, hostWrite_quiet,
      Bool.and_self]
  · unfold halfSectorBranch
    rw [if_neg hs]
    rfl

/-- The flag after a run of step interrupts. -/
theorem stepEdges_flag (edges : List (Bool × Bool)) (m : Machine) :
    (stepEdges edges m).trackChanged = (m.trackChanged || !edges.isEmpty) := by
  induction edges generalizing m with
  | nil => simp [stepEdges]
  | cons e rest ih =>
    have h := ih (stepISR e.1 e.2 m)
    have e2 : stepEdges (e :: rest) m = stepEdges rest (stepISR e.1 e.2 m) := rfl
    rw [e2, h]
    simp [stepISR]

/-- The trace of a sector slot: the start of the slot, the read path, the
framing branch. -/
theorem sectorSlot_trace (P : Platform) (inp : SlotIn) (m : Machine) :
    (sectorSlot P inp m).trace
      = (slotStart inp m).trace
        ++ (getSectorData P inp.io (slotStart inp m).d (slotStart inp m).buf
              (lbaOf (slotStart inp m).d)).2.2
        ++ (if P.IS_HALFSECTOR then
              halfSectorBranch P inp (slotStart inp m).d (lbaOf (slotStart inp m).d)
                (prepareHeader P (slotStart inp m).d
                  (getSectorData P inp.io (slotStart inp m).d (slotStart inp m).buf
                    (lbaOf (slotStart inp m).d)).2.1)
            else
              fullSectorBranch P inp (slotStart inp m).d (lbaOf (slotStart inp m).d)
                (prepareHeader P (slotStart inp m).d
                  (getSectorData P inp.io (slotStart inp m).d (slotStart inp m).buf
                    (lbaOf (slotStart inp m).d)).2.1)).2 := rfl

/-- The rest of a sector slot after its start neither moves the head nor
drives TRACK0. -/
theorem sectorSlot_after_start (P : Platform) (inp : SlotIn) (m : Machine) (init : Bool) :
    (sectorSlot P inp m).d = (slotStart inp m).d
    ∧ track0Asserted init (sectorSlot P inp m).trace
        = track0Asserted init (slotStart inp m).trace := by
  have hg := getSectorData_quiet P inp.io (slotStart inp m).d (slotStart inp m).buf
    (lbaOf (slotStart inp m).d)
  constructor
  · rfl
  · rw [sectorSlot_trace, track0Asserted_append, track0Asserted_append,
      track0Asserted_quiet _ _ hg]
    apply track0Asserted_quiet
    split_ifs
    · exact halfSectorBranch_quiet _ _ _ _ _
    · exact fullSectorBranch_quiet _ _ _ _ _

/-- The start of a slot: with a track change pending, TRACK0 is driven from
the clamped track; without one, head and TRACK0 stay as they were. -/
theorem slotStart_track0 (inp : SlotIn) (m : Machine) (init : Bool) :
    ((m.trackChanged || !inp.edges.isEmpty) = true →
        track0Asserted init (slotStart inp m).trace = ((slotStart inp m).d.track == 0))
    ∧ ((m.trackChanged || !inp.edges.isEmpty) = false →
        (slotStart inp m).d.track = m.d.track
        ∧ track0Asserted init (slotStart inp m).trace = track0Asserted init m.trace) := by
  obtain ⟨h1, h2, _⟩ :=
    stepEdges_keeps inp.edges { m with d := { m.d with side := if inp.SIDE then 0 else 1 } }
  have hf := stepEdges_flag inp.edges
    { m with d := { m.d with side := if inp.SIDE then 0 else 1 } }
  unfold slotStart
  generalize stepEdges inp.edges
      { m with d := { m.d with side := if inp.SIDE then 0 else 1 } } = m1 at h1 h2 hf ⊢
  have ht : m1.trace = m.trace := h1
  have htr : m1.d.track = m.d.track := by rw [h2]
  have hf2 : m1.trackChanged = (m.trackChanged || !inp.edges.isEmpty) := hf
  constructor
  · intro hc
    have hc1 : m1.trackChanged = true := by rw [hf2]; exact hc
    simp [trackChangeStep, hc1, track0Asserted, List.foldl_append]
  · intro hc
    have hc1 : m1.trackChanged = false := by rw [hf2]; exact hc
    rw [trackChangeStep_idle m1 hc1, htr, ht]
    exact ⟨rfl, rfl⟩

/-- C13 (counterexample): the sample drive at track 0 with TRACK0 released, as
`initFDDpins` leaves it, is selected for one revolution with no STEP edge:
`run` returns, the head is at track 0 throughout, and TRACK0 is never driven,
so it is not asserted.  After `eject()` from track 5 (TRACK0 high) the head
position is 0 and a sector slot leaves TRACK0 not asserted. -/
theorem track0_stale_without_track_change :
    (run ⟨sampleCrc, false, false⟩ oneRevolution 11 (machineAt readyDrive)).map
        (fun m => (m.d.track, track0Writes m.trace, track0Asserted false m.trace,
                   (m.trace.filterMap Event.location).length))
      = some (0, [], false, 9)
    ∧ ejectedMachine.d.track = 0
    ∧ (sectorSlot ⟨sampleCrc, false, false⟩ idleSlot ejectedMachine).d.track = 0
    ∧ track0Asserted false (sectorSlot ⟨sampleCrc, false, false⟩ idleSlot ejectedMachine).trace
        = false := by
  decide

/-- C13 (amended): in every sector slot in which a track change is pending
(the flag is set or a STEP edge arrives before the track check), the run loop
drives TRACK0 so that it is asserted if and only if the clamped track is 0; in
a slot without one it leaves both the head and TRACK0 as they were.  So every
slot preserves "TRACK0 is asserted iff track == 0", whatever the level `init`
before the trace was. -/
theorem track0_follows_track_change (P : Platform) (inp : SlotIn) (m : Machine) (init : Bool) :
    ((m.trackChanged || !inp.edges.isEmpty) = true →
        track0Asserted init (sectorSlot P inp m).trace = ((sectorSlot P inp m).d.track == 0))
    ∧ ((m.trackChanged || !inp.edges.isEmpty) = false →
        (sectorSlot P inp m).d.track = m.d.track
        ∧ track0Asserted init (sectorSlot P inp m).trace = track0Asserted init m.trace)
    ∧ (track0Asserted init m.trace = (m.d.track == 0) →
        track0Asserted init (sectorSlot P inp m).trace = ((sectorSlot P inp m).d.track == 0)) := by
  obtain ⟨hd, ht⟩ := sectorSlot_after_start P inp m init
  obtain ⟨s1, s2⟩ := slotStart_track0 inp m init
  rw [hd, ht]
  refine ⟨s1, s2, ?_⟩
  intro hinv
  by_cases hc : (m.trackChanged || !inp.edges.isEmpty) = true
  · exact s1 hc
  · have hc2 : (m.trackChanged || !inp.edges.isEmpty) = false := by simpa using hc
    obtain ⟨a, b⟩ := s2 hc2
    rw [a, b, hinv]

/-- C13 (amended), applied: one decrement edge at track 1 of the sample drive
with TRACK0 released brings the head to track 0 and TRACK0 low. -/
theorem track0_follows_track_change_witness :
    track0Asserted false
        (sectorSlot ⟨sampleCrc, false, false⟩ { idleSlot with edges := [(true, true)] }
          (machineAt { readyDrive with track := 1 })).trace
      = ((sectorSlot ⟨sampleCrc, false, false⟩ { idleSlot with edges := [(true, true)] }
          (machineAt { readyDrive with track := 1 })).d.track == 0) :=
  (track0_follows_track_change ⟨sampleCrc, false, false⟩ { idleSlot with edges := [(true, true)] }
    (machineAt { readyDrive with track := 1 }) false).1 (by decide)

/-! ## C18: step edges during the consumption of the pending delta -/

theorem signedCount_nil : signedCount [] = 0 := rfl

theorem signedCount_cons (e : Bool × Bool) (rest : List (Bool × Bool)) :
    signedCount (e :: rest)
      = (if e.1 then (if e.2 then (-1 : Int) else 1) else 0) + signedCount rest := by
  simp [signedCount]

theorem signedCount_append (a b : List (Bool × Bool)) :
    signedCount (a ++ b) = signedCount a + signedCount b := by
  simp [signedCount]

theorem signedCount_bound (l : List (Bool × Bool)) :
    -(l.length : Int) ≤ signedCount l ∧ signedCount l ≤ (l.length : Int) := by
  induction l with
  | nil => simp [signedCount]
  | cons e rest ih =>
    rw [signedCount_cons]
    simp only [List.length_cons]
    push_cast
    split_ifs <;> omega

/-- As long as the count fits the 8-bit accumulator, a run of step interrupts
adds its signed count to `iTrack`. -/
theorem stepEdges_iTrack (edges : List (Bool × Bool)) (m : Machine) (k : Nat)
    (hlo : -(k : Int) ≤ m.iTrack) (hhi : m.iTrack ≤ (k : Int)) (hfit : k + edges.length ≤ 127) :
    (stepEdges edges m).iTrack = m.iTrack + signedCount edges := by
  induction edges generalizing m k with
  | nil => simp [stepEdges, signedCount]
  | cons e rest ih =>
    have e2 : stepEdges (e :: rest) m = stepEdges rest (stepISR e.1 e.2 m) := rfl
    simp only [List.length_cons] at hfit
    have hstep : (stepISR e.1 e.2 m).iTrack
        = m.iTrack + (if e.1 then (if e.2 then (-1 : Int) else 1) else 0) := by
      simp only [stepISR, toInt8]
      split_ifs <;> omega
    have hb : -((k + 1 : Nat) : Int) ≤ (stepISR e.1 e.2 m).iTrack
        ∧ (stepISR e.1 e.2 m).iTrack ≤ ((k + 1 : Nat) : Int) := by
      rw [hstep]
      push_cast
      split_ifs <;> omega
    rw [e2, ih (stepISR e.1 e.2 m) (k + 1) hb.1 hb.2 (by omega), hstep, signedCount_cons]
    ring

/-- With no interrupt in between, the statement-by-statement block is the
track-change step of the run loop. -/
theorem consumeInterleaved_sequential (m : Machine) (hc : m.trackChanged = true) :
    (consumeInterleaved ⟨[], [], [], []⟩ m).1.d.track = (trackChangeStep m).d.track
    ∧ (consumeInterleaved ⟨[], [], [], []⟩ m).1.iTrack = (trackChangeStep m).iTrack
    ∧ (consumeInterleaved ⟨[], [], [], []⟩ m).1.trackChanged = (trackChangeStep m).trackChanged
    ∧ (consumeInterleaved ⟨[], [], [], []⟩ m).1.trace = (trackChangeStep m).trace
    ∧ (consumeInterleaved ⟨[], [], [], []⟩ m).2 = m.iTrack := by
  simp [consumeInterleaved, trackChangeStep, stepEdges, hc]

/-- C18 (counterexample): one valid increment edge that arrives between
`track += iTrack` and `iTrack = 0` is lost: nothing was added to `track`,
nothing is left pending, and the head stays on track 0, although one valid
edge was delivered. -/
theorem edge_between_add_and_reset_is_lost :
    (consumeInterleaved ⟨[], [], [(true, false)], []⟩
        { machineAt readyDrive with trackChanged := true }).2 = 0
    ∧ (consumeInterleaved ⟨[], [], [(true, false)], []⟩
        { machineAt readyDrive with trackChanged := true }).1.iTrack = 0
    ∧ (consumeInterleaved ⟨[], [], [(true, false)], []⟩
        { machineAt readyDrive with trackChanged := true }).1.d.track = 0
    ∧ signedCount ([] ++ [] ++ [(true, false)] ++ []) = 1 := by
  decide

/-- C18 (amended): starting with no delta pending, for every placement of the
step interrupts around the three statements of the consumption (at most 127
interrupts in all, so that the 8-bit accumulator does not wrap), the delta
added to `track` plus the delta still pending equals the signed count of the
valid edges delivered before the read of `iTrack` or after its reset; the
edges counted between the read and the reset are discarded.  With no
interrupt in that window no valid edge is lost. -/
theorem consume_keeps_edges_outside_window (sch : ConsumeSchedule) (m : Machine)
    (h0 : m.iTrack = 0)
    (hfit : sch.beforeClear.length + sch.afterClear.length + sch.afterAdd.length
              + sch.afterReset.length ≤ 127) :
    (consumeInterleaved sch m).2 + (consumeInterleaved sch m).1.iTrack
        = signedCount (sch.beforeClear ++ sch.afterClear ++ sch.afterReset)
    ∧ (consumeInterleaved sch m).2 + (consumeInterleaved sch m).1.iTrack
          + signedCount sch.afterAdd
        = signedCount (sch.beforeClear ++ sch.afterClear ++ sch.afterAdd ++ sch.afterReset)
    ∧ (sch.afterAdd = [] →
        (consumeInterleaved sch m).2 + (consumeInterleaved sch m).1.iTrack
          = signedCount (sch.beforeClear ++ sch.afterClear ++ sch.afterAdd ++ sch.afterReset)) := by
  have hA := stepEdges_iTrack sch.beforeClear m 0 (by rw [h0]; simp) (by rw [h0]; simp) (by omega)
  have bA := signedCount_bound sch.beforeClear
  have hB := stepEdges_iTrack sch.afterClear
    { stepEdges sch.beforeClear m with trackChanged := false } sch.beforeClear.length
    (by show -(sch.beforeClear.length : Int) ≤ (stepEdges sch.beforeClear m).iTrack
        rw [hA, h0]; omega)
    (by show (stepEdges sch.beforeClear m).iTrack ≤ (sch.beforeClear.length : Int)
        rw [hA, h0]; omega)
    (by omega)
  have hB2 : (stepEdges sch.afterClear
      { stepEdges sch.beforeClear m with trackChanged := false }).iTrack
      = signedCount sch.beforeClear + signedCount sch.afterClear := by
    rw [hB]
    show (stepEdges sch.beforeClear m).iTrack + _ = _
    rw [hA, h0]; ring
  have happlied : (consumeInterleaved sch m).2
      = signedCount sch.beforeClear + signedCount sch.afterClear := hB2
  have hpending : (consumeInterleaved sch m).1.iTrack = signedCount sch.afterReset := by
    unfold consumeInterleaved
    simp only []
    rw [stepEdges_iTrack sch.afterReset _ 0 (by simp) (by simp) (by omega)]
    simp
  have hsum : (consumeInterleaved sch m).2 + (consumeInterleaved sch m).1.iTrack
      = signedCount (sch.beforeClear ++ sch.afterClear ++ sch.afterReset) := by
    rw [happlied, hpending, signedCount_append, signedCount_append]
  refine ⟨hsum, ?_, ?_⟩
  · rw [hsum]
    simp only [signedCount_append]
    ring
  · intro hnone
    rw [hsum, hnone, List.append_nil]

/-- C18 (amended), applied: two increment edges before the flag is cleared,
one decrement edge before the read of `iTrack`, one increment edge after the
reset: 1 is added to the track and 1 stays pending. -/
theorem consume_keeps_edges_outside_window_witness :
    (consumeInterleaved ⟨[(true, false), (true, false)], [(true, true)], [], [(true, false)]⟩
        { machineAt readyDrive with trackChanged := true }).2
      + (consumeInterleaved ⟨[(true, false), (true, false)], [(true, true)], [], [(true, false)]⟩
        { machineAt readyDrive with trackChanged := true }).1.iTrack
      = signedCount ([(true, false), (true, false)] ++ [(true, true)] ++ [] ++ [(true, false)]) :=
  (consume_keeps_edges_outside_window
    ⟨[(true, false), (true, false)], [(true, true)], [], [(true, false)]⟩
    { machineAt readyDrive with trackChanged := true } rfl (by decide)).2.2 rfl

/-! ## C19, C20: persisting the first half in half-sector mode -/

/-- The first-half framing reads and writes the window `[8, 521)` of the
buffer (mark and payload) from that window alone. -/
theorem frameFirstHalf_window (P : Platform) (b c : Buf)
    (h : ∀ a, 8 ≤ a → a < 521 → b a = c a) :
    ∀ a, 8 ≤ a → a < 521 → frameFirstHalf P b a = frameFirstHalf P c a := by
  have hp : peekN (poke b (firstHalf - 1) 0xFB) (firstHalf - 1) 257
      = peekN (poke c (firstHalf - 1) 0xFB) (firstHalf - 1) 257 := by
    apply peekN_congr
    intro a h1 h2
    simp only [firstHalf, OFF_DATA] at h1 h2
    simp only [poke, firstHalf, OFF_DATA]
    split_ifs
    · rfl
    · exact h a (by omega) (by omega)
  have hc : crcAt P (poke b (firstHalf - 1) 0xFB) (firstHalf - 1) 257
      = crcAt P (poke c (firstHalf - 1) 0xFB) (firstHalf - 1) 257 := by
    unfold crcAt; rw [hp]
  intro a h1 h2
  simp only [frameFirstHalf, hc]
  simp only [poke, memcpy, firstHalf, secondHalf, savedBytes, OFF_DATA, OFF_EXTRA]
  split_ifs <;> first | rfl | omega | exact h a h1 h2

/-- The first-half framing leaves `crcHI` and `crcLO` alone. -/
theorem frameFirstHalf_keeps_crc (P : Platform) (b : Buf) :
    frameFirstHalf P b OFF_CRCHI = b OFF_CRCHI ∧ frameFirstHalf P b OFF_CRCLO = b OFF_CRCLO := by
  constructor <;>
    simp [frameFirstHalf, poke, memcpy, firstHalf, secondHalf, savedBytes, OFF_DATA, OFF_EXTRA,
      OFF_CRCHI, OFF_CRCLO]

/-- Left-over CRC bytes do not enter the CRC recomputed after the first half. -/
theorem firstHalfCrc_of_poked (P : Platform) (x y : Nat) :
    crcAt P (frameFirstHalf P (poke (poke zeroBuf OFF_CRCHI x) OFF_CRCLO y)) OFF_ID 513
      = firstHalfCrc P := by
  unfold firstHalfCrc crcAt
  have hp : peekN (frameFirstHalf P (poke (poke zeroBuf OFF_CRCHI x) OFF_CRCLO y)) OFF_ID 513
      = peekN (frameFirstHalf P zeroBuf) OFF_ID 513 := by
    apply peekN_congr
    intro a h1 h2
    simp only [OFF_ID] at h1 h2
    apply frameFirstHalf_window P _ _ _ a h1 (by omega)
    intro a2 g1 g2
    simp only [poke, OFF_CRCHI, OFF_CRCLO]
    rw [if_neg (by omega), if_neg (by omega)]
  rw [hp]

/-- The events of the half-sector branch when the host writes the first half
only and the read-back returns the frame as sent. -/
theorem halfSectorBranch_first_half_written (P : Platform) (d : FloppyDrive) (lba : Int)
    (buf : Buf) (hs : d.sector % 2 = 0) :
    (halfSectorBranch P firstHalfWriteSlot d lba buf).2
      = [Event.transmit (firstHalf - 9) (frameFirstHalf P buf), Event.readback (firstHalf - 9)]
        ++ (setSectorData P okStore d (frameFirstHalf P buf) lba).2
        ++ [Event.transmit (secondHalf - 9) (frameSecondHalf P (frameFirstHalf P buf))] := by
  rw [halfSectorBranch_events P firstHalfWriteSlot d lba buf hs]
  have hw1 : firstHalfWriteSlot.write1 > 0 := by decide
  have hw2 : ¬ (firstHalfWriteSlot.write2 > 0) := by decide
  rw [if_pos hw1, if_neg hw2]
  simp [readBackAndSave, firstHalfWriteSlot]

theorem writtenBytes_append (i : Nat) (a b : List Event) :
    writtenBytes i (a ++ b) = writtenBytes i a ++ writtenBytes i b := by
  induction a with
  | nil => rfl
  | cons e rest ih => cases e <;> simp [writtenBytes, ih]

/-- C19 (code defect): in half-sector mode, on the READY sample drive at the
even sector index 0, the host writes the first half and the read-back returns
it unmodified with status 0.  `setSectorData` is called (once), recomputes the
CRC over `sectorData.id` and all 512 bytes and compares it with `crcHI`,
`crcLO`, which the first-half framing does not write: with left-over bytes
that differ from the recomputed CRC the buffer is rejected and no store write
is issued.  This holds for every CRC function. -/
theorem first_half_not_persisted :
    ∀ calc_crc : List Nat → Nat,
      crcAccepted ⟨calc_crc, true, false⟩
          (frameFirstHalf ⟨calc_crc, true, false⟩ (staleCrcBuf ⟨calc_crc, true, false⟩)) = false
      ∧ persistCalls (halfSectorBranch ⟨calc_crc, true, false⟩ firstHalfWriteSlot readyDrive 0
          (staleCrcBuf ⟨calc_crc, true, false⟩)).2 = 1
      ∧ (halfSectorBranch ⟨calc_crc, true, false⟩ firstHalfWriteSlot readyDrive 0
          (staleCrcBuf ⟨calc_crc, true, false⟩)).2.filter Event.isStoreWrite = [] := by
  intro calc_crc
  have hlt : firstHalfCrc ⟨calc_crc, true, false⟩ < 65536 := crcAt_lt _ _ _ _
  have hk := frameFirstHalf_keeps_crc ⟨calc_crc, true, false⟩ (staleCrcBuf ⟨calc_crc, true, false⟩)
  have hcrc := firstHalfCrc_of_poked ⟨calc_crc, true, false⟩
    (firstHalfCrc ⟨calc_crc, true, false⟩ / 256 + 1) (firstHalfCrc ⟨calc_crc, true, false⟩ % 256 + 1)
  have hhi : staleCrcBuf ⟨calc_crc, true, false⟩ OFF_CRCHI
      = (firstHalfCrc ⟨calc_crc, true, false⟩ / 256 + 1) % 256 := by
    simp [staleCrcBuf, poke, OFF_CRCHI, OFF_CRCLO]
  have hlo : staleCrcBuf ⟨calc_crc, true, false⟩ OFF_CRCLO
      = (firstHalfCrc ⟨calc_crc, true, false⟩ % 256 + 1) % 256 := by
    simp [staleCrcBuf, poke, OFF_CRCLO]
  have hrej : crcAccepted ⟨calc_crc, true, false⟩
      (frameFirstHalf ⟨calc_crc, true, false⟩ (staleCrcBuf ⟨calc_crc, true, false⟩)) = false := by
    unfold crcAccepted
    show (_ || _) = false
    rw [hk.1, hk.2, hhi, hlo]
    have e : crcAt ⟨calc_crc, true, false⟩
        (frameFirstHalf ⟨calc_crc, true, false⟩ (staleCrcBuf ⟨calc_crc, true, false⟩)) OFF_ID 513
        = firstHalfCrc ⟨calc_crc, true, false⟩ := hcrc
    rw [e]
    generalize firstHalfCrc ⟨calc_crc, true, false⟩ = c at hlt
    simp only [Bool.or_eq_false_iff, beq_eq_false_iff_ne, ne_eq]
    constructor <;> omega
  have hev := halfSectorBranch_first_half_written ⟨calc_crc, true, false⟩ readyDrive 0
    (staleCrcBuf ⟨calc_crc, true, false⟩) (by decide)
  refine ⟨hrej, ?_, ?_⟩
  · rw [hev, setSectorData_rejects _ _ _ _ _ hrej]
    simp [persistCalls]
  · rw [hev, setSectorData_rejects _ _ _ _ _ hrej]
    simp [Event.isStoreWrite]

/-- C20 (code defect): in half-sector mode, on the READY sample drive at the
even sector index 0 with an all-zero sector fetched, the host writes the
first half, the read-back returns it unmodified and the buffer passes the CRC
test of `setSectorData` (the left-over `crcHI`, `crcLO` match).  The one block
handed to the store then has the gap byte `0x4E` at index 258, where the
fetched sector has `0x00`: the first half is persisted before
`memcpy(secondHalf, savedBytes, 3)` puts the start of the second half back.
This holds for every CRC function. -/
theorem first_half_persist_overwrites_second_half :
    ∀ calc_crc : List Nat → Nat,
      crcAccepted ⟨calc_crc, true, false⟩
          (frameFirstHalf ⟨calc_crc, true, false⟩ (luckyCrcBuf ⟨calc_crc, true, false⟩)) = true
      ∧ writtenBytes 258 (halfSectorBranch ⟨calc_crc, true, false⟩ firstHalfWriteSlot readyDrive 0
          (luckyCrcBuf ⟨calc_crc, true, false⟩)).2 = [0x4E]
      ∧ luckyCrcBuf ⟨calc_crc, true, false⟩ (OFF_DATA + 258) = 0x00
      ∧ (halfSectorBranch ⟨calc_crc, true, false⟩ firstHalfWriteSlot readyDrive 0
          (luckyCrcBuf ⟨calc_crc, true, false⟩)).2.filterMap Event.location
        = [(Backing.physical, 0)] := by
  intro calc_crc
  have hlt : firstHalfCrc ⟨calc_crc, true, false⟩ < 65536 := crcAt_lt _ _ _ _
  have hk := frameFirstHalf_keeps_crc ⟨calc_crc, true, false⟩ (luckyCrcBuf ⟨calc_crc, true, false⟩)
  have hcrc := firstHalfCrc_of_poked ⟨calc_crc, true, false⟩
    (firstHalfCrc ⟨calc_crc, true, false⟩ / 256) (firstHalfCrc ⟨calc_crc, true, false⟩ % 256)
  have hhi : luckyCrcBuf ⟨calc_crc, true, false⟩ OFF_CRCHI
      = (firstHalfCrc ⟨calc_crc, true, false⟩ / 256) % 256 := by
    simp [luckyCrcBuf, poke, OFF_CRCHI, OFF_CRCLO]
  have hacc : crcAccepted ⟨calc_crc, true, false⟩
      (frameFirstHalf ⟨calc_crc, true, false⟩ (luckyCrcBuf ⟨calc_crc, true, false⟩)) = true := by
    unfold crcAccepted
    show (_ || _) = true
    rw [hk.1, hhi]
    have e : crcAt ⟨calc_crc, true, false⟩
        (frameFirstHalf ⟨calc_crc, true, false⟩ (luckyCrcBuf ⟨calc_crc, true, false⟩)) OFF_ID 513
        = firstHalfCrc ⟨calc_crc, true, false⟩ := hcrc
    rw [e]
    generalize firstHalfCrc ⟨calc_crc, true, false⟩ = c at hlt
    have : c / 256 % 256 = c / 256 := by omega
    simp [this]
  have hgap := (frameFirstHalf_trailer ⟨calc_crc, true, false⟩
    (luckyCrcBuf ⟨calc_crc, true, false⟩)).2.2.2
  have hev := halfSectorBranch_first_half_written ⟨calc_crc, true, false⟩ readyDrive 0
    (luckyCrcBuf ⟨calc_crc, true, false⟩) (by decide)
  have hset : (setSectorData ⟨calc_crc, true, false⟩ okStore readyDrive
      (frameFirstHalf ⟨calc_crc, true, false⟩ (luckyCrcBuf ⟨calc_crc, true, false⟩)) 0).2
      = [Event.debugSector 'W',
         Event.storeWrite Backing.physical 0
          (fun i => frameFirstHalf ⟨calc_crc, true, false⟩
            (luckyCrcBuf ⟨calc_crc, true, false⟩) (OFF_DATA + i))] := by
    unfold setSectorData
    rw [if_pos hacc]
    simp [readyDrive, FloppyDisk.isReady, FD_READY, okStore, physAddr]
  refine ⟨hacc, ?_, ?_, ?_⟩
  · rw [hev, hset]
    simp only [List.cons_append, List.nil_append, writtenBytes]
    have e : OFF_DATA + 258 = secondHalf + 2 := by decide
    rw [e, hgap]
  · simp [luckyCrcBuf, poke, zeroBuf, OFF_DATA, OFF_CRCHI, OFF_CRCLO, OFF_ID]
  · rw [hev, hset]
    simp [Event.location]

end FddEMU
